import Mathlib

/-!
Verification of the markdown-svg repository (`src/mdsvg`).

Shallow embedding conventions:
* Python `str` values that the code inspects character by character are
  modelled as `List Char`; `String` literals are converted with `.data`.
* Python `float` arithmetic is modelled with `ℚ` (exact rationals); the
  decimal literals of the source are exact in this model.
* Fallible Python code (constructor validation raising `ValueError`,
  unexpected-keyword `TypeError`, unbounded loops) is modelled with
  `Except Err`; loops whose progress the source does not guarantee are
  given explicit fuel.
* External collaborators (font metrics, image dimension sniffing, URL
  mapping) are injected as pure functions, as the specification treats
  them as opaque capabilities.
-/

namespace Mdsvg

/-! ## measure.py : character-class width heuristics -/

/-- Characters of the narrow class in `estimate_char_width`
(`"iIlj1|!.,;:'\x60"`); the apostrophe and backtick are written with
`Char.ofNat` (codes 39 and 96). -/
def narrowChars : List Char :=
  "iIlj1|!.,;:".data ++ [Char.ofNat 39, Char.ofNat 96]

/-- Characters of the wide class in `estimate_char_width` (`"mwMW@"`). -/
def wideChars : List Char := "mwMW@".data

/-- Characters of the medium-wide class in `estimate_char_width`
(`"ABCDEFGHJKNOPQRSTUVXYZ0234567890"`, verbatim from the source: the
letters I, L, M, W are absent and the digit 0 is listed twice). -/
def mediumChars : List Char := "ABCDEFGHJKNOPQRSTUVXYZ0234567890".data

/-- `measure.estimate_char_width`. -/
def estimateCharWidth (c : Char) (fontSize : ℚ) (isBold isMono : Bool)
    (charWidthRatio boldCharWidthRatio : ℚ) : ℚ :=
  if isMono then
    fontSize * 0.6
  else
    let baseRatio := if isBold then boldCharWidthRatio else charWidthRatio
    if c ∈ narrowChars then fontSize * baseRatio * 0.5
    else if c ∈ wideChars then fontSize * baseRatio * 1.5
    else if c ∈ mediumChars then fontSize * baseRatio * 1.2
    else if c = ' ' then fontSize * baseRatio * 0.8
    else fontSize * baseRatio

/-- `measure.estimate_text_width`: sum of the per-character estimates. -/
def estimateTextWidth (text : List Char) (fontSize : ℚ) (isBold isMono : Bool)
    (charWidthRatio boldCharWidthRatio : ℚ) : ℚ :=
  (text.map (fun c =>
    estimateCharWidth c fontSize isBold isMono charWidthRatio boldCharWidthRatio)).sum

/-! ## style.py : the Style configuration record and merge_styles -/

/-- `style.CodeBlockOverflow` literal type. -/
inductive CodeBlockOverflow where
  | wrap
  | show
  | hide
  | ellipsis
  | foreignObject
deriving DecidableEq, Repr

/-- `style.Style`: the immutable configuration record, with the same fields
and defaults as the source dataclass (floats as exact rationals). -/
structure Style where
  font_family : String :=
    "system-ui, -apple-system, BlinkMacSystemFont, 'Segoe UI', sans-serif"
  mono_font_family : String := "ui-monospace, 'SF Mono', Menlo, Consolas, monospace"
  base_font_size : ℚ := 14.0
  line_height : ℚ := 1.5
  text_color : String := "#1a1a1a"
  heading_color : Option String := none
  link_color : String := "#2563eb"
  link_underline : Bool := true
  code_color : String := "#be185d"
  code_background : String := "#f3f4f6"
  blockquote_color : String := "#6b7280"
  blockquote_border_color : String := "#d1d5db"
  h1_scale : ℚ := 2.0
  h2_scale : ℚ := 1.6
  h3_scale : ℚ := 1.35
  h4_scale : ℚ := 1.15
  h5_scale : ℚ := 1.0
  h6_scale : ℚ := 0.9
  heading_font_weight : String := "bold"
  heading_margin_top : ℚ := 1.5
  heading_margin_bottom : ℚ := 0.5
  paragraph_spacing : ℚ := 12.0
  list_indent : ℚ := 24.0
  list_item_spacing : ℚ := 4.0
  code_block_padding : ℚ := 12.0
  code_block_border_radius : ℚ := 4.0
  code_block_overflow : CodeBlockOverflow := .wrap
  blockquote_padding : ℚ := 16.0
  blockquote_border_width : ℚ := 3.0
  table_border_color : String := "#e5e7eb"
  table_header_background : String := "#f9fafb"
  table_cell_padding : ℚ := 8.0
  hr_color : String := "#e5e7eb"
  hr_height : ℚ := 1.0
  image_width : Option ℚ := none
  image_height : Option ℚ := none
  image_fallback_aspect_ratio : ℚ := 16 / 9
  image_enforce_aspect_ratio : Bool := false
  char_width_ratio : ℚ := 0.48
  bold_char_width_ratio : ℚ := 0.58
  italic_char_width_ratio : ℚ := 0.52
  mono_char_width_ratio : ℚ := 0.6
  text_width_scale : ℚ := 1.1
deriving DecidableEq

/-- `Style()`: the shared default Style that merge_styles compares against. -/
def defaultStyle : Style := {}

/-- One iteration of the `merge_styles` loop for a single style `s`: for each
dataclass field, the kwargs dict entry is overwritten with `s`'s value exactly
when that value differs from the default; keeping the dict as a partially
built Style (missing keys = value accumulated so far, starting from the
default) is equivalent to `Style(**result_kwargs)` at the end. -/
def mergeStylesStep (acc s : Style) : Style where
  font_family :=
    if s.font_family ≠ defaultStyle.font_family then s.font_family else acc.font_family
  mono_font_family :=
    if s.mono_font_family ≠ defaultStyle.mono_font_family then s.mono_font_family
    else acc.mono_font_family
  base_font_size :=
    if s.base_font_size ≠ defaultStyle.base_font_size then s.base_font_size
    else acc.base_font_size
  line_height :=
    if s.line_height ≠ defaultStyle.line_height then s.line_height else acc.line_height
  text_color :=
    if s.text_color ≠ defaultStyle.text_color then s.text_color else acc.text_color
  heading_color :=
    if s.heading_color ≠ defaultStyle.heading_color then s.heading_color
    else acc.heading_color
  link_color :=
    if s.link_color ≠ defaultStyle.link_color then s.link_color else acc.link_color
  link_underline :=
    if s.link_underline ≠ defaultStyle.link_underline then s.link_underline
    else acc.link_underline
  code_color :=
    if s.code_color ≠ defaultStyle.code_color then s.code_color else acc.code_color
  code_background :=
    if s.code_background ≠ defaultStyle.code_background then s.code_background
    else acc.code_background
  blockquote_color :=
    if s.blockquote_color ≠ defaultStyle.blockquote_color then s.blockquote_color
    else acc.blockquote_color
  blockquote_border_color :=
    if s.blockquote_border_color ≠ defaultStyle.blockquote_border_color then
      s.blockquote_border_color
    else acc.blockquote_border_color
  h1_scale := if s.h1_scale ≠ defaultStyle.h1_scale then s.h1_scale else acc.h1_scale
  h2_scale := if s.h2_scale ≠ defaultStyle.h2_scale then s.h2_scale else acc.h2_scale
  h3_scale := if s.h3_scale ≠ defaultStyle.h3_scale then s.h3_scale else acc.h3_scale
  h4_scale := if s.h4_scale ≠ defaultStyle.h4_scale then s.h4_scale else acc.h4_scale
  h5_scale := if s.h5_scale ≠ defaultStyle.h5_scale then s.h5_scale else acc.h5_scale
  h6_scale := if s.h6_scale ≠ defaultStyle.h6_scale then s.h6_scale else acc.h6_scale
  heading_font_weight :=
    if s.heading_font_weight ≠ defaultStyle.heading_font_weight then s.heading_font_weight
    else acc.heading_font_weight
  heading_margin_top :=
    if s.heading_margin_top ≠ defaultStyle.heading_margin_top then s.heading_margin_top
    else acc.heading_margin_top
  heading_margin_bottom :=
    if s.heading_margin_bottom ≠ defaultStyle.heading_margin_bottom then
      s.heading_margin_bottom
    else acc.heading_margin_bottom
  paragraph_spacing :=
    if s.paragraph_spacing ≠ defaultStyle.paragraph_spacing then s.paragraph_spacing
    else acc.paragraph_spacing
  list_indent :=
    if s.list_indent ≠ defaultStyle.list_indent then s.list_indent else acc.list_indent
  list_item_spacing :=
    if s.list_item_spacing ≠ defaultStyle.list_item_spacing then s.list_item_spacing
    else acc.list_item_spacing
  code_block_padding :=
    if s.code_block_padding ≠ defaultStyle.code_block_padding then s.code_block_padding
    else acc.code_block_padding
  code_block_border_radius :=
    if s.code_block_border_radius ≠ defaultStyle.code_block_border_radius then
      s.code_block_border_radius
    else acc.code_block_border_radius
  code_block_overflow :=
    if s.code_block_overflow ≠ defaultStyle.code_block_overflow then s.code_block_overflow
    else acc.code_block_overflow
  blockquote_padding :=
    if s.blockquote_padding ≠ defaultStyle.blockquote_padding then s.blockquote_padding
    else acc.blockquote_padding
  blockquote_border_width :=
    if s.blockquote_border_width ≠ defaultStyle.blockquote_border_width then
      s.blockquote_border_width
    else acc.blockquote_border_width
  table_border_color :=
    if s.table_border_color ≠ defaultStyle.table_border_color then s.table_border_color
    else acc.table_border_color
  table_header_background :=
    if s.table_header_background ≠ defaultStyle.table_header_background then
      s.table_header_background
    else acc.table_header_background
  table_cell_padding :=
    if s.table_cell_padding ≠ defaultStyle.table_cell_padding then s.table_cell_padding
    else acc.table_cell_padding
  hr_color := if s.hr_color ≠ defaultStyle.hr_color then s.hr_color else acc.hr_color
  hr_height := if s.hr_height ≠ defaultStyle.hr_height then s.hr_height else acc.hr_height
  image_width :=
    if s.image_width ≠ defaultStyle.image_width then s.image_width else acc.image_width
  image_height :=
    if s.image_height ≠ defaultStyle.image_height then s.image_height else acc.image_height
  image_fallback_aspect_ratio :=
    if s.image_fallback_aspect_ratio ≠ defaultStyle.image_fallback_aspect_ratio then
      s.image_fallback_aspect_ratio
    else acc.image_fallback_aspect_ratio
  image_enforce_aspect_ratio :=
    if s.image_enforce_aspect_ratio ≠ defaultStyle.image_enforce_aspect_ratio then
      s.image_enforce_aspect_ratio
    else acc.image_enforce_aspect_ratio
  char_width_ratio :=
    if s.char_width_ratio ≠ defaultStyle.char_width_ratio then s.char_width_ratio
    else acc.char_width_ratio
  bold_char_width_ratio :=
    if s.bold_char_width_ratio ≠ defaultStyle.bold_char_width_ratio then
      s.bold_char_width_ratio
    else acc.bold_char_width_ratio
  italic_char_width_ratio :=
    if s.italic_char_width_ratio ≠ defaultStyle.italic_char_width_ratio then
      s.italic_char_width_ratio
    else acc.italic_char_width_ratio
  mono_char_width_ratio :=
    if s.mono_char_width_ratio ≠ defaultStyle.mono_char_width_ratio then
      s.mono_char_width_ratio
    else acc.mono_char_width_ratio
  text_width_scale :=
    if s.text_width_scale ≠ defaultStyle.text_width_scale then s.text_width_scale
    else acc.text_width_scale

/-- `style.merge_styles`: empty argument list yields `Style()`; otherwise the
kwargs dict is built by folding the per-style loop from the default. -/
def mergeStyles (styles : List Style) : Style :=
  if styles = [] then defaultStyle
  else styles.foldl mergeStylesStep defaultStyle

/-- Specification-side description of per-field merging: the last value in
`vals` that differs from the default `d`, or `d` when none differs. -/
def lastNonDefault {α : Type} [DecidableEq α] (vals : List α) (d : α) : α :=
  (vals.reverse.find? (fun v => decide (v ≠ d))).getD d

/-! ## types.py : AST node types with their defensive validation -/

/-- Python exceptions that the embedded code can raise: `ValueError` from the
`__post_init__` validators, `TypeError` from a constructor call with
unexpected keyword arguments, and exhaustion of the explicit fuel that
replaces an unbounded Python loop. -/
inductive Err where
  | valueError (msg : String)
  | typeError (msg : String)
  | fuelExhausted
deriving DecidableEq, Repr

/-- `types.SpanType`. -/
inductive SpanType where
  | text
  | bold
  | italic
  | bold_italic
  | code
  | link
  | image
deriving DecidableEq, Repr

/-- `types.Span` (fields only; validation lives in `mkSpan`). -/
structure Span where
  text : List Char
  span_type : SpanType := .text
  url : Option (List Char) := none
  title : Option (List Char) := none
deriving DecidableEq, Repr

/-- `Span(...)` construction including `Span.__post_init__`: LINK and IMAGE
spans with a falsy url (`None` or the empty string) raise `ValueError`. -/
def mkSpan (text : List Char) (span_type : SpanType := .text)
    (url : Option (List Char) := none) (title : Option (List Char) := none) :
    Except Err Span :=
  if span_type = .link ∧ (url = none ∨ url = some []) then
    .error (.valueError "Link spans must have a URL")
  else if span_type = .image ∧ (url = none ∨ url = some []) then
    .error (.valueError "Image spans must have a URL")
  else
    .ok { text := text, span_type := span_type, url := url, title := title }

mutual

/-- The `Union[UnorderedList, OrderedList]` that a `types.ListItem` may nest. -/
inductive NestedList where
  | ul (items : List ListItem)
  | ol (items : List ListItem) (start : Int)

/-- `types.ListItem` (the parser always leaves `nested_list` as `None`). -/
inductive ListItem where
  | mk (spans : List Span) (nested_list : Option NestedList)

end

/-- `types.TableCell`; `align` is the Python `Optional[str]` value
(`"left"`, `"center"`, `"right"` or `None`). -/
structure TableCell where
  spans : List Span
  is_header : Bool := false
  align : Option (List Char) := none

/-- `types.TableRow`. -/
structure TableRow where
  cells : List TableCell

/-- `types.Block` and its subclasses as one closed sum. `types.ImageBlock`
has exactly the fields `url`, `alt`, `title` (no width/height — this matters
for the parser's standalone-image branch). -/
inductive Block where
  | paragraph (spans : List Span)
  | heading (level : Int) (spans : List Span)
  | code_block (code : List Char) (language : Option (List Char))
  | blockquote (blocks : List Block)
  | unordered_list (items : List ListItem)
  | ordered_list (items : List ListItem) (start : Int)
  | horizontal_rule
  | table (header : TableRow) (rows : List TableRow)
      (alignments : List (Option (List Char)))
  | image_block (url : List Char) (alt : List Char) (title : Option (List Char))

/-- A parsed document: `types.Document = List[AnyBlock]`. -/
abbrev Document := List Block

/-- `Heading(...)` construction including `Heading.__post_init__`: levels
outside 1–6 raise `ValueError`. -/
def mkHeading (level : Int) (spans : List Span) : Except Err Block :=
  if 1 ≤ level ∧ level ≤ 6 then .ok (.heading level spans)
  else .error (.valueError "Heading level must be 1-6")

/-- The parser's call `ImageBlock(url=url, alt=alt, title=title, width=width,
height=height)` (parser.py line 233): `types.ImageBlock` is a frozen
dataclass whose generated `__init__` accepts only `url`, `alt` and `title`,
so passing the `width`/`height` keywords raises `TypeError` before any
instance is created, whatever their values are. -/
def imageBlockKwCall (_url _alt : List Char) (_title : Option (List Char))
    (_width _height : Option ℚ) : Except Err Block :=
  .error (.typeError "ImageBlock got an unexpected keyword argument width")

/-! ## measure.py : wrap_text and _break_long_word -/

/-- Python `text.split(" ")`: split at every single space, preserving empty
pieces; the result is always non-empty. -/
def splitOnSpace : List Char → List (List Char)
  | [] => [[]]
  | c :: cs =>
      if c = ' ' then [] :: splitOnSpace cs
      else
        match splitOnSpace cs with
        | w :: ws => (c :: w) :: ws
        | [] => [[c]]

/-- Python `" ".join(...)`. -/
def joinSpace : List (List Char) → List Char
  | [] => []
  | [w] => w
  | w :: ws => w ++ ' ' :: joinSpace ws

/-- The character loop of `measure._break_long_word`, carrying the current
chunk and its accumulated width. -/
def breakChunks (mw fs : ℚ) (b m : Bool) (rc bc : ℚ) :
    List Char → List Char → ℚ → List (List Char)
  | [], chunk, _ => if chunk = [] then [] else [chunk]
  | c :: cs, chunk, cw =>
      let w := estimateCharWidth c fs b m rc bc
      if cw + w > mw ∧ chunk ≠ [] then
        chunk :: breakChunks mw fs b m rc bc cs [c] w
      else
        breakChunks mw fs b m rc bc cs (chunk ++ [c]) (cw + w)

/-- `measure._break_long_word`. -/
def breakLongWord (word : List Char) (mw fs : ℚ) (b m : Bool) (rc bc : ℚ) :
    List (List Char) :=
  let chunks := breakChunks mw fs b m rc bc word [] 0
  if chunks = [] then [word] else chunks

/-- The word loop of `measure.wrap_text`, carrying the accumulated lines,
the current line (as its list of words) and the current width. -/
def wrapLoop (mw fs : ℚ) (b m : Bool) (rc bc : ℚ) :
    List (List Char) → List (List Char) → List (List Char) → ℚ → List (List Char)
  | [], lines, cur, _ =>
      lines ++ (if cur = [] then [] else [joinSpace cur])
  | word :: rest, lines, cur, cw =>
      let ww := estimateTextWidth word fs b m rc bc
      if ww > mw ∧ cur = [] then
        let broken := breakLongWord word mw fs b m rc bc
        wrapLoop mw fs b m rc bc rest (lines ++ broken.dropLast) [broken.getLastD []]
          (estimateTextWidth (broken.getLastD []) fs b m rc bc)
      else
        let spaceWidth := estimateCharWidth ' ' fs b m rc bc
        let nw := cw + (if cur = [] then 0 else spaceWidth) + ww
        if nw ≤ mw then
          wrapLoop mw fs b m rc bc rest lines (cur ++ [word]) nw
        else
          wrapLoop mw fs b m rc bc rest
            (lines ++ (if cur = [] then [] else [joinSpace cur])) [word] ww

/-- `measure.wrap_text`. -/
def wrapText (text : List Char) (mw fs : ℚ) (b m : Bool) (rc bc : ℚ) :
    List (List Char) :=
  if text = [] then [[]]
  else
    let lines := wrapLoop mw fs b m rc bc (splitOnSpace text) [] [] 0
    if lines = [] then [[]] else lines

/-- The re-wrap property of a line produced by `wrap_text` (used by the
amended form of the idempotence claim): the line fits the max width or is a
single space-free word, and re-wrapping it standalone returns it unchanged
whenever it fits or is a single character. -/
def wrapLineOK (mw fs : ℚ) (b m : Bool) (rc bc : ℚ) (L : List Char) : Prop :=
  (estimateTextWidth L fs b m rc bc ≤ mw ∨ ' ' ∉ L) ∧
  ((estimateTextWidth L fs b m rc bc ≤ mw ∨ L.length = 1) →
    wrapText L mw fs b m rc bc = [L])

/-! ## utils.py and parser.py : helpers, regex scanners -/

/-- ASCII `\s` / `str.isspace` test (space, tab, newline, carriage return,
vertical tab, form feed; the inputs here are ASCII text). -/
def pyIsSpace (c : Char) : Bool :=
  c == ' ' || c == '\t' || c == '\n' || c == '\r' ||
    c == Char.ofNat 11 || c == Char.ofNat 12

/-- ASCII `\d` test. -/
def pyIsDigit (c : Char) : Bool := '0' ≤ c && c ≤ '9'

/-- ASCII `\w` test (the regexes here only meet ASCII word characters). -/
def pyIsWord (c : Char) : Bool :=
  ('a' ≤ c && c ≤ 'z') || ('A' ≤ c && c ≤ 'Z') || pyIsDigit c || c == '_'

/-- Strip characters satisfying `p` from both ends (`str.strip(chars)`). -/
def stripBoth (p : Char → Bool) (s : List Char) : List Char :=
  ((s.dropWhile p).reverse.dropWhile p).reverse

/-- Python `str.strip()`. -/
def pyStrip (s : List Char) : List Char := stripBoth pyIsSpace s

/-- Python `str.split(sep)` for a one-character separator, empty pieces
preserved. -/
def splitOnChar (sep : Char) : List Char → List (List Char)
  | [] => [[]]
  | c :: cs =>
      if c = sep then [] :: splitOnChar sep cs
      else
        match splitOnChar sep cs with
        | w :: ws => (c :: w) :: ws
        | [] => [[c]]

/-- Python `str.split()` (no argument): split on whitespace runs, dropping
empty pieces. -/
def pySplitWhitespace : List Char → List (List Char)
  | [] => []
  | c :: cs =>
      if pyIsSpace c then pySplitWhitespace cs
      else
        match pySplitWhitespace cs with
        | [] => [[c]]
        | w :: ws =>
            match cs with
            | [] => [[c]]
            | d :: _ => if pyIsSpace d then [c] :: w :: ws else (c :: w) :: ws

/-- `utils.normalize_whitespace`: `" ".join(text.split())`. -/
def normalizeWhitespace (s : List Char) : List Char :=
  joinSpace (pySplitWhitespace s)

/-- The `"\r\n" -> "\n"` then `"\r" -> "\n"` replacements of
`utils.split_lines`, fused into one left-to-right pass (equivalent because
the two Python replaces are applied in sequence). -/
def replaceCRLF : List Char → List Char
  | [] => []
  | [c] => if c = '\r' then ['\n'] else [c]
  | c :: d :: rest =>
      if c = '\r' then
        if d = '\n' then '\n' :: replaceCRLF rest
        else '\n' :: replaceCRLF (d :: rest)
      else c :: replaceCRLF (d :: rest)

/-- `utils.split_lines`. -/
def splitLines (text : List Char) : List (List Char) :=
  splitOnChar '\n' (replaceCRLF text)

/-- `"\n".join(...)`. -/
def joinNL : List (List Char) → List Char
  | [] => []
  | [l] => l
  | l :: ls => l ++ '\n' :: joinNL ls

/-- Python `int(...)` on a string of digits. -/
def pyIntOfDigits (ds : List Char) : Int :=
  ds.foldl (fun a c => a * 10 + ((c.toNat : Int) - 48)) 0

/-- Python `float(...)` on a numeric string `\d+(\.\d+)?`. -/
def pyFloatOfNumStr (s : List Char) : ℚ :=
  let ip := s.takeWhile (fun c => c != '.')
  let rest := s.drop (ip.length + 1)
  ((pyIntOfDigits ip : ℚ)) + (pyIntOfDigits rest : ℚ) / (10 : ℚ) ^ rest.length

/-- The shared `\s+(.+)$` suffix of `HEADING_PATTERN`,
`UNORDERED_LIST_ITEM` and `ORDERED_LIST_ITEM`: at least one whitespace
character, then a non-empty remainder; when the remainder after the greedy
whitespace run is empty, the engine backtracks and the text group captures
the last whitespace character. -/
def wsPlusText (s : List Char) : Option (List Char) :=
  let ws := s.takeWhile pyIsSpace
  let tail := s.drop ws.length
  if ws = [] then none
  else if tail ≠ [] then some tail
  else if 2 ≤ ws.length then some [ws.getLastD ' ']
  else none

/-- `HEADING_PATTERN = ^(#{1,6})\s+(.+)$` (level, raw text group). With
seven or more leading hashes no split of the hash run lets `\s+` match, so
the whole pattern fails. -/
def headingMatch (line : List Char) : Option (Nat × List Char) :=
  let hashes := line.takeWhile (fun c => c == '#')
  let n := hashes.length
  if n = 0 ∨ 6 < n then none
  else (wsPlusText (line.drop n)).map (fun text => (n, text))

/-- `HORIZONTAL_RULE = ^(?:[-*_]){3,}\s*$` (the three marker characters may
mix; only trailing whitespace is allowed). -/
def horizontalRuleMatch (line : List Char) : Bool :=
  let run := line.takeWhile (fun c => c == '-' || c == '*' || c == '_')
  3 ≤ run.length && (line.drop run.length).all pyIsSpace

/-- The backtick character (code 96). -/
def backtickChar : Char := Char.ofNat 96

/-- `FENCED_CODE_START = ^\x60\x60\x60(\w*)\s*$`: returns the language
group. -/
def fencedStartMatch (line : List Char) : Option (List Char) :=
  if line.take 3 = [backtickChar, backtickChar, backtickChar] then
    let rest := line.drop 3
    let w := rest.takeWhile pyIsWord
    if (rest.drop w.length).all pyIsSpace then some w else none
  else none

/-- `FENCED_CODE_END = ^\x60\x60\x60\s*$`. -/
def fencedEndMatch (line : List Char) : Bool :=
  line.take 3 = [backtickChar, backtickChar, backtickChar] &&
    (line.drop 3).all pyIsSpace

/-- `BLOCKQUOTE = ^>\s?(.*)$`: the `\s?` greedily eats one optional
whitespace character after the marker. -/
def blockquoteMatch (line : List Char) : Option (List Char) :=
  match line with
  | [] => none
  | c :: rest =>
      if c = '>' then
        match rest with
        | d :: rest2 => if pyIsSpace d then some rest2 else some rest
        | [] => some []
      else none

/-- `TABLE_ROW = ^\|(.+)\|$`. -/
def tableRowMatch (line : List Char) : Bool :=
  3 ≤ line.length && line.head? == some '|' && line.getLast? == some '|'

/-- `TABLE_SEPARATOR = ^\|[\s\-:|]+\|$`. -/
def tableSepMatch (line : List Char) : Bool :=
  3 ≤ line.length && line.head? == some '|' && line.getLast? == some '|' &&
    ((line.drop 1).dropLast.all (fun c =>
      pyIsSpace c || c == '-' || c == ':' || c == '|'))

/-- `UNORDERED_LIST_ITEM = ^(\s*)([-*+])\s+(.+)$`: (indent width, bullet,
text group). -/
def unorderedItemMatch (line : List Char) : Option (Nat × Char × List Char) :=
  let ind := line.takeWhile pyIsSpace
  match line.drop ind.length with
  | [] => none
  | b :: rest =>
      if b = '-' ∨ b = '*' ∨ b = '+' then
        (wsPlusText rest).map (fun text => (ind.length, b, text))
      else none

/-- `ORDERED_LIST_ITEM = ^(\s*)(\d+)\.\s+(.+)$`: (indent width, digit
group, text group). -/
def orderedItemMatch (line : List Char) : Option (Nat × List Char × List Char) :=
  let ind := line.takeWhile pyIsSpace
  let rest := line.drop ind.length
  let ds := rest.takeWhile pyIsDigit
  if ds = [] then none
  else
    match rest.drop ds.length with
    | '.' :: rest2 => (wsPlusText rest2).map (fun text => (ind.length, ds, text))
    | _ => none

/-- The two quote characters accepted by the title groups (`["']`, codes 34
and 39). -/
def isQuoteChar (c : Char) : Bool := c == Char.ofNat 34 || c == Char.ofNat 39

/-- The `([^)\s]+)(?:\s+["']([^"']+)["'])?\)` tail shared by the `LINK`,
`IMAGE` and `IMAGE_BLOCK` patterns, applied after the opening parenthesis:
returns (url group, optional title group, remainder after the closing
parenthesis).  The url run is the maximal run without `)` or whitespace; a
title requires whitespace, a quote, a non-empty run free of both quote
characters, a quote and then the closing parenthesis immediately — no other
backtracking can succeed, so the scan is deterministic. -/
def parseUrlTitleClose (s : List Char) :
    Option (List Char × Option (List Char) × List Char) :=
  let url := s.takeWhile (fun c => !(c == ')') && !(pyIsSpace c))
  if url = [] then none
  else
    match s.drop url.length with
    | ')' :: rest2 => some (url, none, rest2)
    | c :: rest2 =>
        if pyIsSpace c then
          let afterWs := (c :: rest2).dropWhile pyIsSpace
          match afterWs with
          | q :: rest3 =>
              if isQuoteChar q then
                let title := rest3.takeWhile (fun d => !(isQuoteChar d))
                if title = [] then none
                else
                  match rest3.drop title.length with
                  | q2 :: ')' :: rest4 =>
                      if isQuoteChar q2 then some (url, some title, rest4) else none
                  | _ => none
              else none
          | [] => none
        else none
    | [] => none

/-- An anchored attempt of `IMAGE = !\[([^\]]*)\]\(...\)` at the start of
`s`: (alt group, url group, optional title, remainder). -/
def tryImageAt (s : List Char) :
    Option (List Char × List Char × Option (List Char) × List Char) :=
  match s with
  | '!' :: '[' :: rest =>
      let alt := rest.takeWhile (fun c => !(c == ']'))
      (match rest.drop alt.length with
        | ']' :: '(' :: rest2 =>
            (parseUrlTitleClose rest2).map
              (fun r => (alt, r.1, r.2.1, r.2.2))
        | _ => none)
  | _ => none

/-- An anchored attempt of `LINK = \[([^\]]+)\]\(...\)` at the start of
`s`: (text group, url group, optional title, remainder). -/
def tryLinkAt (s : List Char) :
    Option (List Char × List Char × Option (List Char) × List Char) :=
  match s with
  | '[' :: rest =>
      let txt := rest.takeWhile (fun c => !(c == ']'))
      if txt = [] then none
      else
        (match rest.drop txt.length with
          | ']' :: '(' :: rest2 =>
              (parseUrlTitleClose rest2).map
                (fun r => (txt, r.1, r.2.1, r.2.2))
          | _ => none)
  | _ => none

/-- An anchored attempt of `INLINE_CODE = \x60([^\x60]+)\x60` at the start
of `s`: (code group, remainder). -/
def tryCodeAt (s : List Char) : Option (List Char × List Char) :=
  match s with
  | c :: rest =>
      if c = backtickChar then
        let inner := rest.takeWhile (fun d => !(d == backtickChar))
        if inner = [] then none
        else
          match rest.drop inner.length with
          | _ :: rest2 => some (inner, rest2)
          | [] => none
      else none
  | [] => none

/-- The lazy `(.+?)` scan for the emphasis patterns: find the shortest
non-empty newline-free inner text after which the closing delimiter
follows; returns (inner group, remainder after the closing delimiter). -/
def lazyFindClose (delim : List Char) : List Char → Option (List Char × List Char)
  | [] => none
  | c :: cs =>
      if c = '\n' then none
      else if cs.take delim.length = delim then some ([c], cs.drop delim.length)
      else (lazyFindClose delim cs).map (fun r => (c :: r.1, r.2))

/-- An anchored attempt of one alternative of `BOLD_ITALIC`/`BOLD` (a
delimiter run, a lazy inner group, the same delimiter run). -/
def tryEmphAt (delim : List Char) (s : List Char) : Option (List Char × List Char) :=
  if s.take delim.length = delim then lazyFindClose delim (s.drop delim.length)
  else none

/-- `BOLD_ITALIC = \*\*\*(.+?)\*\*\*|___(.+?)___` anchored at the start
(left alternative first). -/
def tryBoldItalicAt (s : List Char) : Option (List Char × List Char) :=
  (tryEmphAt ['*', '*', '*'] s).orElse (fun _ => tryEmphAt ['_', '_', '_'] s)

/-- `BOLD = \*\*(.+?)\*\*|__(.+?)__` anchored at the start. -/
def tryBoldAt (s : List Char) : Option (List Char × List Char) :=
  (tryEmphAt ['*', '*'] s).orElse (fun _ => tryEmphAt ['_', '_'] s)

/-- One alternative of `ITALIC` (`\*([^*]+)\*` with `d` as the marker):
the greedy negated class run must be non-empty and be closed by the same
marker. -/
def tryItalicDelimAt (d : Char) (s : List Char) : Option (List Char × List Char) :=
  match s with
  | c :: rest =>
      if c = d then
        let inner := rest.takeWhile (fun e => !(e == d))
        if inner = [] then none
        else
          match rest.drop inner.length with
          | _ :: rest2 => some (inner, rest2)
          | [] => none
      else none
  | [] => none

/-- `ITALIC = \*([^*]+)\*|_([^_]+)_` anchored at the start. -/
def tryItalicAt (s : List Char) : Option (List Char × List Char) :=
  (tryItalicDelimAt '*' s).orElse (fun _ => tryItalicDelimAt '_' s)

/-- `re.search` over an anchored matcher: the match at the leftmost
position where the matcher succeeds, together with the text before it. -/
def searchAux {α : Type} (f : List Char → Option α) : List Char → Option (List Char × α)
  | [] => (f []).map (fun a => ([], a))
  | c :: cs =>
      match f (c :: cs) with
      | some a => some ([], a)
      | none => (searchAux f cs).map (fun r => (c :: r.1, r.2))

/-- The typed result of the earliest inline match in `_parse_inline`. -/
inductive InlineMatch where
  | code (txt : List Char)
  | image (alt url : List Char) (title : Option (List Char))
  | link (txt url : List Char) (title : Option (List Char))
  | bold_italic (inner : List Char)
  | bold (inner : List Char)
  | italic (inner : List Char)

/-- `match.start() < earliest_pos` update of `_parse_inline`: a candidate
replaces the current earliest match only when it starts strictly earlier, so
the evaluation order (code, image, link, bold+italic, bold, italic) breaks
ties. -/
def earlierMatch (cur cand : Option (Nat × InlineMatch × List Char)) :
    Option (Nat × InlineMatch × List Char) :=
  match cur, cand with
  | none, c => c
  | some c, none => some c
  | some c, some c2 => if c2.1 < c.1 then some c2 else some c

/-- The scan-and-emit loop of `MarkdownParser._parse_inline`; the fuel is
the length of the remaining text plus one (every emitted match consumes at
least one character). -/
def parseInlineLoop : Nat → List Char → Except Err (List Span)
  | 0, _ => .error .fuelExhausted
  | fuel + 1, remaining =>
      if remaining = [] then .ok []
      else
        let mcode := (searchAux tryCodeAt remaining).map
          (fun r => (r.1.length, InlineMatch.code r.2.1, r.2.2))
        let mimage := (searchAux tryImageAt remaining).map
          (fun r => (r.1.length, InlineMatch.image r.2.1 r.2.2.1 r.2.2.2.1, r.2.2.2.2))
        let mlink := (searchAux tryLinkAt remaining).map
          (fun r => (r.1.length, InlineMatch.link r.2.1 r.2.2.1 r.2.2.2.1, r.2.2.2.2))
        let mbi := (searchAux tryBoldItalicAt remaining).map
          (fun r => (r.1.length, InlineMatch.bold_italic r.2.1, r.2.2))
        let mb := (searchAux tryBoldAt remaining).map
          (fun r => (r.1.length, InlineMatch.bold r.2.1, r.2.2))
        let mi := (searchAux tryItalicAt remaining).map
          (fun r => (r.1.length, InlineMatch.italic r.2.1, r.2.2))
        match earlierMatch (earlierMatch (earlierMatch (earlierMatch
            (earlierMatch (earlierMatch none mcode) mimage) mlink) mbi) mb) mi with
        | none => do
            let sp ← mkSpan remaining
            .ok [sp]
        | some (pos, mtch, rest) => do
            let preSpans ←
              if 0 < pos then do
                let sp ← mkSpan (remaining.take pos)
                pure [sp]
              else pure []
            let sp ←
              match mtch with
              | .code txt => mkSpan txt .code
              | .image alt url title =>
                  mkSpan (if alt ≠ [] then alt else url) .image (some url) title
              | .link txt url title => mkSpan txt .link (some url) title
              | .bold_italic inner => mkSpan inner .bold_italic
              | .bold inner => mkSpan inner .bold
              | .italic inner => mkSpan inner .italic
            let tl ← parseInlineLoop fuel rest
            .ok (preSpans ++ sp :: tl)

/-- `MarkdownParser._parse_inline`. -/
def parseInline (text : List Char) : Except Err (List Span) :=
  if text = [] then .ok []
  else parseInlineLoop (text.length + 1) text

/-- The verbatim-consuming loop of the fenced-code branch: code lines until
a closing fence (consumed, including the closing fence line) or end of
input. -/
def fencedBody : List (List Char) → (List (List Char) × Nat)
  | [] => ([], 0)
  | l :: ls =>
      if fencedEndMatch l then ([], 1)
      else
        let r := fencedBody ls
        (l :: r.1, r.2 + 1)

/-- The consuming loop of the indented-code branch (before the
trailing-blank-line trim). -/
def indentedBody : List (List Char) → (List (List Char) × Nat)
  | [] => ([], 0)
  | l :: ls =>
      if l.take 4 = "    ".data then
        let r := indentedBody ls
        (l.drop 4 :: r.1, r.2 + 1)
      else if l.take 1 = ['\t'] then
        let r := indentedBody ls
        (l.drop 1 :: r.1, r.2 + 1)
      else if pyStrip l = [] then
        let r := indentedBody ls
        ([] :: r.1, r.2 + 1)
      else ([], 0)

/-- `while code_lines and not code_lines[-1]: code_lines.pop()`. -/
def trimTrailingEmpty (ls : List (List Char)) : List (List Char) :=
  (ls.reverse.dropWhile (fun l => l.isEmpty)).reverse

/-- The consuming loop of the blockquote branch: quoted content lines; a
blank line is included (as an empty line) only when the next line resumes
the quote. -/
def quoteBody : List (List Char) → (List (List Char) × Nat)
  | [] => ([], 0)
  | l :: ls =>
      match blockquoteMatch l with
      | some g =>
          let r := quoteBody ls
          (g :: r.1, r.2 + 1)
      | none =>
          if pyStrip l = [] then
            match ls with
            | nxt :: _ =>
                if (blockquoteMatch nxt).isSome then
                  let r := quoteBody ls
                  ([] :: r.1, r.2 + 1)
                else ([], 0)
            | [] => ([], 0)
          else ([], 0)

/-- `MarkdownParser._collect_paragraph_lines`; `isFirst` mirrors
`not para_lines` (true exactly on the first loop iteration). -/
def isBlockStartLine (line : List Char) : Bool :=
  (headingMatch line).isSome || horizontalRuleMatch line ||
    (fencedStartMatch line).isSome || (blockquoteMatch line).isSome ||
    (unorderedItemMatch line).isSome || (orderedItemMatch line).isSome ||
    tableRowMatch line

/-- `MarkdownParser._collect_paragraph_lines`. -/
def collectParagraphLines : List (List Char) → Bool → (List (List Char) × Nat)
  | [], _ => ([], 0)
  | line :: rest, isFirst =>
      if pyStrip line = [] then ([], 0)
      else if isBlockStartLine line || (line.take 4 = "    ".data && isFirst) then
        ([], 0)
      else
        let r := collectParagraphLines rest false
        (normalizeWhitespace line :: r.1, r.2 + 1)

/-- The item loop of `MarkdownParser._parse_unordered_list`, carrying the
established base indent. -/
def parseULAux : List (List Char) → Option Nat → Except Err (List ListItem × Nat)
  | [], _ => .ok ([], 0)
  | line :: rest, base =>
      if pyStrip line = [] then
        (parseULAux rest base).map (fun r => (r.1, r.2 + 1))
      else
        match unorderedItemMatch line with
        | some (indent, _, text) =>
            (match base with
              | none => do
                  let spans ← parseInline text
                  let r ← parseULAux rest (some indent)
                  .ok (ListItem.mk spans none :: r.1, r.2 + 1)
              | some b =>
                  if indent < b then .ok ([], 0)
                  else if indent = b then do
                    let spans ← parseInline text
                    let r ← parseULAux rest (some b)
                    .ok (ListItem.mk spans none :: r.1, r.2 + 1)
                  else
                    (parseULAux rest (some b)).map (fun r => (r.1, r.2 + 1)))
        | none =>
            if line.head? ≠ some ' ' ∧ line.head? ≠ some '\t' then .ok ([], 0)
            else (parseULAux rest base).map (fun r => (r.1, r.2 + 1))

/-- `MarkdownParser._parse_unordered_list`. -/
def parseUnorderedList (lines : List (List Char)) : Except Err (Block × Nat) :=
  (parseULAux lines none).map (fun r => (Block.unordered_list r.1, r.2))

/-- The item loop of `MarkdownParser._parse_ordered_list`; the third result
is the start number captured from the first item that establishes the base
indent. -/
def parseOLAux : List (List Char) → Option Nat →
    Except Err (List ListItem × Nat × Option Int)
  | [], _ => .ok ([], 0, none)
  | line :: rest, base =>
      if pyStrip line = [] then
        (parseOLAux rest base).map (fun r => (r.1, r.2.1 + 1, r.2.2))
      else
        match orderedItemMatch line with
        | some (indent, ds, text) =>
            (match base with
              | none => do
                  let spans ← parseInline text
                  let r ← parseOLAux rest (some indent)
                  .ok (ListItem.mk spans none :: r.1, r.2.1 + 1, some (pyIntOfDigits ds))
              | some b =>
                  if indent < b then .ok ([], 0, none)
                  else if indent = b then do
                    let spans ← parseInline text
                    let r ← parseOLAux rest (some b)
                    .ok (ListItem.mk spans none :: r.1, r.2.1 + 1, r.2.2)
                  else
                    (parseOLAux rest (some b)).map (fun r => (r.1, r.2.1 + 1, r.2.2)))
        | none =>
            if line.head? ≠ some ' ' ∧ line.head? ≠ some '\t' then .ok ([], 0, none)
            else (parseOLAux rest base).map (fun r => (r.1, r.2.1 + 1, r.2.2))

/-- `MarkdownParser._parse_ordered_list` (`start_num` defaults to 1). -/
def parseOrderedList (lines : List (List Char)) : Except Err (Block × Nat) :=
  (parseOLAux lines none).map
    (fun r => (Block.ordered_list r.1 (r.2.2.getD 1), r.2.1))

/-- `MarkdownParser._parse_table_alignments`. -/
def parseTableAlignments (separator : List Char) : List (Option (List Char)) :=
  let content := stripBoth (fun c => c == '|') (pyStrip separator)
  (splitOnChar '|' content).map (fun cell =>
    let c := pyStrip cell
    if c.head? = some ':' ∧ c.getLast? = some ':' then some "center".data
    else if c.getLast? = some ':' then some "right".data
    else if c.head? = some ':' then some "left".data
    else none)

/-- `MarkdownParser._parse_table_row`. -/
def parseTableRowCells (line : List Char) (alignments : List (Option (List Char)))
    (is_header : Bool) : Except Err (List TableCell) :=
  let content := stripBoth (fun c => c == '|') (pyStrip line)
  (splitOnChar '|' content).enum.mapM (fun p => do
    let spans ← parseInline (pyStrip p.2)
    .ok (TableCell.mk spans is_header (alignments.getD p.1 none)))

/-- The body-row loop of `MarkdownParser._parse_table`. -/
def parseTableBody (lines : List (List Char))
    (alignments : List (Option (List Char))) : Except Err (List TableRow × Nat) :=
  match lines with
  | [] => .ok ([], 0)
  | line :: rest =>
      if tableRowMatch line then do
        let cells ← parseTableRowCells line alignments false
        let r ← parseTableBody rest alignments
        .ok (TableRow.mk cells :: r.1, r.2 + 1)
      else .ok ([], 0)

/-- `MarkdownParser._parse_table`. -/
def parseTable (lines : List (List Char)) : Except Err (Option (Block × Nat)) :=
  match lines with
  | header :: separator :: rest =>
      if ¬ tableRowMatch header then .ok none
      else if ¬ tableSepMatch separator then .ok none
      else do
        let alignments := parseTableAlignments separator
        let headerCells ← parseTableRowCells header alignments true
        let r ← parseTableBody rest alignments
        .ok (some (Block.table (TableRow.mk headerCells) r.1 alignments, r.2 + 2))
  | _ => .ok none

/-- One match attempt of `IMAGE_ATTR = (\w+)\s*=\s*(\d+(?:\.\d+)?)`:
(key group, number group, remainder). -/
def imageAttrMatchAt (s : List Char) :
    Option ((List Char × List Char) × List Char) :=
  let key := s.takeWhile pyIsWord
  if key = [] then none
  else
    match (s.drop key.length).dropWhile pyIsSpace with
    | '=' :: r3 =>
        let r4 := r3.dropWhile pyIsSpace
        let ds := r4.takeWhile pyIsDigit
        if ds = [] then none
        else
          (match r4.drop ds.length with
            | '.' :: r6 =>
                let fr := r6.takeWhile pyIsDigit
                if fr = [] then some ((key, ds), r4.drop ds.length)
                else some ((key, ds ++ '.' :: fr), r6.drop fr.length)
            | r5 => some ((key, ds), r5))
    | _ => none

/-- `IMAGE_ATTR.finditer`: scan left to right, continuing after each match. -/
def findIterAttrs : Nat → List Char → List (List Char × List Char)
  | 0, _ => []
  | _, [] => []
  | fuel + 1, s =>
      match imageAttrMatchAt s with
      | some (kv, rest) => kv :: findIterAttrs fuel rest
      | none => findIterAttrs fuel (s.drop 1)

/-- The `{width=W height=H}` attribute loop of the standalone-image branch
(case-insensitive keys; later occurrences overwrite earlier ones). -/
def parseImageAttrs (attrs : List Char) : Option ℚ × Option ℚ :=
  (findIterAttrs (attrs.length + 1) attrs).foldl
    (fun acc kv =>
      let key := kv.1.map Char.toLower
      if key = "width".data then (some (pyFloatOfNumStr kv.2), acc.2)
      else if key = "height".data then (acc.1, some (pyFloatOfNumStr kv.2))
      else acc)
    (none, none)

/-- `IMAGE_BLOCK`: the anchored `IMAGE` pattern, an optional
`\{([^}]+)\}` attribute group and trailing whitespace; returns (alt, url,
optional title, optional raw attribute text). -/
def imageBlockMatch (line : List Char) :
    Option (List Char × List Char × Option (List Char) × Option (List Char)) :=
  match tryImageAt line with
  | none => none
  | some (alt, url, title, rest) =>
      match rest with
      | '{' :: rest2 =>
          let inner := rest2.takeWhile (fun c => !(c == '}'))
          if inner = [] then none
          else
            (match rest2.drop inner.length with
              | '}' :: rest3 =>
                  if rest3.all pyIsSpace then some (alt, url, title, some inner)
                  else none
              | _ => none)
      | _ => if rest.all pyIsSpace then some (alt, url, title, none) else none

/-- `MarkdownParser._try_parse_block`, with the source's fixed priority
order.  `parseInner` is the recursive `self.parse(inner_text)` call of the
blockquote branch, supplied by the caller (`_parse_blocks` with one unit of
fuel consumed). -/
def tryParseBlock (parseInner : List Char → Except Err (List Block)) :
    List (List Char) → Except Err (Option (Block × Nat))
  | [] => .ok none
  | line :: rest =>
      match headingMatch line with
      | some hm => do
          let spans ← parseInline (pyStrip hm.2)
          let h ← mkHeading (hm.1 : Int) spans
          .ok (some (h, 1))
      | none =>
      if horizontalRuleMatch line then .ok (some (Block.horizontal_rule, 1))
      else
      match fencedStartMatch line with
      | some lang => do
          let r := fencedBody rest
          .ok (some (Block.code_block (joinNL r.1)
            (if lang = [] then none else some lang), r.2 + 1))
      | none =>
      match
        (if line.take 4 = "    ".data ∨ line.take 1 = ['\t'] then
          let r := indentedBody (line :: rest)
          let trimmed := trimTrailingEmpty r.1
          if trimmed ≠ [] then
            some (Block.code_block (joinNL trimmed) none, r.2)
          else none
        else none) with
      | some r => .ok (some r)
      | none =>
      match blockquoteMatch line with
      | some _ => do
          let r := quoteBody (line :: rest)
          let innerBlocks ← parseInner (joinNL r.1)
          .ok (some (Block.blockquote innerBlocks, r.2))
      | none => do
      match ←
        (if tableRowMatch line then parseTable (line :: rest)
         else .ok none) with
      | some r => .ok (some r)
      | none =>
      match unorderedItemMatch line with
      | some _ => do
          let r ← parseUnorderedList (line :: rest)
          .ok (some r)
      | none =>
      match orderedItemMatch line with
      | some _ => do
          let r ← parseOrderedList (line :: rest)
          .ok (some r)
      | none =>
      match imageBlockMatch (pyStrip line) with
      | some im =>
          let wh := (im.2.2.2.map parseImageAttrs).getD (none, none)
          imageBlockKwCall im.2.1 im.1 im.2.2.1 wh.1 wh.2 |>.map
            (fun blk => some (blk, 1))
      | none => .ok none

/-- The while-loop of `MarkdownParser._parse_blocks`.  The fuel bounds the
number of loop iterations and the blockquote re-parse depth: the source's
loop advances `i` by the consumed count, which the paragraph fallback can
leave at zero (e.g. a `|...|` line with no separator row), so the Python
loop does not always terminate; exhausted fuel models that divergence.  The
function passed to `tryParseBlock` is `self.parse` (empty-input check,
`split_lines`, `_parse_blocks`) at the remaining fuel. -/
def parseBlocksAux : Nat → List (List Char) → Except Err (List Block)
  | _, [] => .ok []
  | 0, _ :: _ => .error .fuelExhausted
  | fuel + 1, line :: rest =>
      if pyStrip line = [] then parseBlocksAux fuel rest
      else do
        match ← tryParseBlock
            (fun txt =>
              if pyStrip txt = [] then .ok []
              else parseBlocksAux fuel (splitLines txt))
            (line :: rest) with
        | some r => do
            let blocks ← parseBlocksAux fuel ((line :: rest).drop r.2)
            .ok (r.1 :: blocks)
        | none =>
            let r := collectParagraphLines (line :: rest) true
            let blocks ← parseBlocksAux fuel ((line :: rest).drop r.2)
            if r.1 ≠ [] then do
              let spans ← parseInline (joinSpace r.1)
              .ok (Block.paragraph spans :: blocks)
            else .ok blocks

/-- `MarkdownParser.parse` with an explicit fuel: empty or whitespace-only
input yields the empty document. -/
def parseDoc (fuel : Nat) (text : List Char) : Except Err (List Block) :=
  if pyStrip text = [] then .ok []
  else parseBlocksAux fuel (splitLines text)

/-- `parser.parse(text)`: the public entry point, with fuel ample for any
terminating run (two units per input character plus slack). -/
def parse (text : String) : Except Err (List Block) :=
  parseDoc (2 * text.data.length + 8) text.data

/-- An ordered-list source line `N. text` in canonical form. -/
def orderedItemLine (p : List Char × List Char) : List Char :=
  p.1 ++ '.' :: ' ' :: p.2

/-- The joined source text of an ordered list, one item per line. -/
def orderedListText (ps : List (List Char × List Char)) : List Char :=
  joinNL (ps.map orderedItemLine)

/-- A well-formed canonical ordered-list item: a non-empty digit string and
a non-empty single-line text whose first character is not whitespace. -/
def simpleOrderedItem (p : List Char × List Char) : Prop :=
  p.1 ≠ [] ∧ p.1.all pyIsDigit = true ∧ p.2 ≠ [] ∧
    pyIsSpace (p.2.headD ' ') = false ∧ '\n' ∉ p.2 ∧ '\r' ∉ p.2

/-- Specification-side description of the ordered-list items: one ListItem
per item line, its spans parsed from the line's text group. -/
def orderedItemsSpec (ps : List (List Char × List Char)) : Except Err (List ListItem) :=
  match ps with
  | [] => .ok []
  | p :: rest => do
      let spans ← parseInline p.2
      let its ← orderedItemsSpec rest
      .ok (ListItem.mk spans none :: its)

/-- The result is not a `ValueError`: the property C3 asserts of every
value the parser produces. -/
def noVal {α : Type} : Except Err α → Prop
  | .error (.valueError _) => False
  | _ => True

/-- The invariant the inline loop needs of a selected match: link and image
matches carry the non-empty url group the regex guarantees. -/
def goodMatch : InlineMatch → Prop
  | .image _ url _ => url ≠ []
  | .link _ url _ => url ≠ []
  | _ => True

/-- `goodMatch` holds of every payload an optional candidate can take. -/
def goodOpt (o : Option (Nat × InlineMatch × List Char)) : Prop :=
  ∀ p, o = some p → goodMatch p.2.1

/-! ## renderer.py : SVGRenderer

The renderer is embedded with the same block-layout arithmetic as the
source.  SVG elements are kept symbolic: one constructor per element string
the source emits, carrying the numeric and textual arguments the source
interpolates (`format_number` and `escape_svg_text` string formatting is
presentation-only and not modelled).  The external font measurer
(`fonts.FontMeasurer.measure`) and image prober (`images.get_image_size`)
are pure function parameters of the renderer state; the image size cache is
observationally transparent because the prober is deterministic, so it is
not part of the state. -/

/-- `measure.Size`. -/
structure Size where
  width : ℚ
  height : ℚ
deriving DecidableEq, Repr

/-- `images.ImageSize` (integer pixel dimensions). -/
structure ImageSize where
  width : Int
  height : Int
deriving DecidableEq, Repr

/-- `ImageSize.aspect_ratio`. -/
def ImageSize.aspect_ratio (s : ImageSize) : ℚ :=
  if s.height = 0 then 1.0 else (s.width : ℚ) / (s.height : ℚ)

/-- Python `int(x)` on a float: truncation toward zero. -/
def pyTrunc (q : ℚ) : Int :=
  if q < 0 then -Rat.floor (-q) else Rat.floor q

/-- `Style.get_heading_scale` (the dict lookup with default 1.0). -/
def Style.get_heading_scale (s : Style) (level : Int) : ℚ :=
  if level = 1 then s.h1_scale
  else if level = 2 then s.h2_scale
  else if level = 3 then s.h3_scale
  else if level = 4 then s.h4_scale
  else if level = 5 then s.h5_scale
  else if level = 6 then s.h6_scale
  else 1.0

/-- `renderer.RenderContext`. -/
structure RenderContext where
  x : ℚ
  y : ℚ
  width : ℚ
  style : Style
  indent : ℚ := 0.0

/-- `RenderContext.with_offset`. -/
def RenderContext.with_offset (ctx : RenderContext) (dx dy : ℚ) : RenderContext :=
  { x := ctx.x + dx, y := ctx.y + dy, width := ctx.width, style := ctx.style,
    indent := ctx.indent }

/-- `RenderContext.with_indent`. -/
def RenderContext.with_indent (ctx : RenderContext) (additional_indent : ℚ) :
    RenderContext :=
  { x := ctx.x + additional_indent, y := ctx.y,
    width := ctx.width - additional_indent, style := ctx.style,
    indent := ctx.indent + additional_indent }

/-- The runtime error of attribute access on a missing dataclass field (the
`img.width` read of `_render_image_block` on `types.ImageBlock`). -/
inductive RErr where
  | attributeError (msg : String)
deriving DecidableEq, Repr

/-- `renderer.TextRun`. -/
structure TextRun where
  text : List Char
  is_bold : Bool := false
  is_italic : Bool := false
  is_code : Bool := false
  is_link : Bool := false
  is_image : Bool := false
  url : Option (List Char) := none
deriving DecidableEq, Repr

/-- `TextRun.same_style`. -/
def TextRun.same_style (a other : TextRun) : Bool :=
  a.is_bold == other.is_bold && a.is_italic == other.is_italic &&
    a.is_code == other.is_code && a.is_link == other.is_link &&
    decide (a.url = other.url)

/-- `TextRun.with_text`. -/
def TextRun.with_text (a : TextRun) (text : List Char) : TextRun :=
  { a with text := text }

/-- `TextRun.append`. -/
def TextRun.append (a : TextRun) (text : List Char) : TextRun :=
  a.with_text (a.text ++ text)

/-- A symbolic SVG element: one constructor per element string the source
appends, with the interpolated layout arguments. -/
inductive SvgElem where
  | rect (x y w h : ℚ) (fill : String) (rx : Option ℚ) (stroke : Option String)
  | line (x1 y1 x2 y2 : ℚ) (stroke : String)
  | circle (cx cy radius : ℚ) (fill : String)
  | codeText (x y font_size : ℚ) (content : List Char)
  | textLine (x y font_size : ℚ) (css_class font_weight : String) (runs : List TextRun)
  | numberText (x y font_size : ℚ) (number : Int)
  | cellText (x y font_size : ℚ) (anchor : String) (is_header : Bool)
      (content : List Char)
  | imageElem (x y w h : ℚ) (href : List Char)
  | titleElem (content : List Char)
  | defsClipPath (x y w h : ℚ)
deriving Repr

/-- The `SVGRenderer` instance state established by `__init__`: the style,
the optional precise measurer (present exactly when fonttools is available
for the chosen font), the optional measured mono character width, the
image-fetch configuration with `images.get_image_size` as a pure function,
and the optional image url mapper. -/
structure SVGRenderer where
  style : Style
  measurer : Option (List Char → ℚ → ℚ) := none
  mono_char_width : Option ℚ := none
  fetch_image_sizes : Bool := true
  image_get_size : List Char → Option ImageSize := fun _ => none
  image_url_mapper : Option (List Char → List Char) := none

/-- `SVGRenderer._measure_text`. -/
def SVGRenderer.measure_text (r : SVGRenderer) (text : List Char) (font_size : ℚ)
    (is_bold is_italic is_mono : Bool) : ℚ :=
  let width :=
    if is_mono then
      match r.mono_char_width with
      | some mcw => (text.length : ℚ) * mcw * font_size
      | none => (text.length : ℚ) * font_size * r.style.mono_char_width_ratio
    else
      match r.measurer with
      | some f =>
          let w := f text font_size
          if is_bold && is_italic then
            w * ((r.style.bold_char_width_ratio / r.style.char_width_ratio) *
              (r.style.italic_char_width_ratio / r.style.char_width_ratio) / 1.0)
          else if is_bold then
            w * (r.style.bold_char_width_ratio / r.style.char_width_ratio)
          else if is_italic then
            w * (r.style.italic_char_width_ratio / r.style.char_width_ratio)
          else w
      | none =>
          let effective_ratio :=
            if is_italic then r.style.italic_char_width_ratio
            else r.style.char_width_ratio
          estimateTextWidth text font_size is_bold is_mono effective_ratio
            r.style.bold_char_width_ratio
  width * r.style.text_width_scale

/-- `SVGRenderer._get_image_size` (the cache is transparent: the prober is
deterministic, and the enforce-aspect-ratio and no-fetch paths return None). -/
def SVGRenderer.get_image_size (r : SVGRenderer) (url : List Char) :
    Option ImageSize :=
  if r.style.image_enforce_aspect_ratio then none
  else if !r.fetch_image_sizes then none
  else r.image_get_size url

/-- `SVGRenderer._build_text_runs`. -/
def build_text_runs (spans : List Span) (_font_size : ℚ) : List TextRun :=
  spans.map (fun span =>
    { text := span.text
      is_bold := span.span_type == SpanType.bold || span.span_type == SpanType.bold_italic
      is_italic := span.span_type == SpanType.italic ||
        span.span_type == SpanType.bold_italic
      is_code := span.span_type == SpanType.code
      is_link := span.span_type == SpanType.link
      is_image := span.span_type == SpanType.image
      url := span.url })

/-- Whether `lines[-1][-1].text.endswith(" ")`; the current line is kept in
reverse order (head = last run). -/
def lastEndsWithSpace (cur : List TextRun) : Bool :=
  match cur with
  | last :: _ => last.text.getLast? == some ' '
  | [] => false

/-- The mutable state of the `_wrap_runs` loop: the completed lines, the
current line `lines[-1]` in reverse order, and `current_width`. -/
structure WrapState where
  done : List (List TextRun)
  cur : List TextRun
  current_width : ℚ

/-- One iteration of the inner word loop of `_wrap_runs` (`isFirst` is
`i == 0`). -/
def wrapRunsWord (r : SVGRenderer) (font_size max_width : ℚ) (run : TextRun)
    (st : WrapState) (isFirst : Bool) (word0 : List Char) : WrapState :=
  let word :=
    if !isFirst || (!st.cur.isEmpty && !lastEndsWithSpace st.cur) then
      if st.cur.isEmpty then word0 else ' ' :: word0
    else word0
  let word_width := r.measure_text word font_size run.is_bold run.is_italic run.is_code
  if st.current_width + word_width ≤ max_width ∨ st.cur = [] then
    match st.cur with
    | last :: restRuns =>
        if last.same_style run then
          { st with cur := last.append word :: restRuns,
                    current_width := st.current_width + word_width }
        else
          { st with cur := run.with_text word :: last :: restRuns,
                    current_width := st.current_width + word_width }
    | [] =>
        { st with cur := [run.with_text (word.dropWhile (fun c => c == ' '))],
                  current_width := st.current_width + word_width }
  else
    let word_clean := word.dropWhile (fun c => c == ' ')
    { done := st.done ++ [st.cur.reverse],
      cur := [run.with_text word_clean],
      current_width :=
        r.measure_text word_clean font_size run.is_bold run.is_italic run.is_code }

/-- The inner word loop of `_wrap_runs` over one run's words. -/
def wrapRunsWords (r : SVGRenderer) (font_size max_width : ℚ) (run : TextRun) :
    WrapState → Bool → List (List Char) → WrapState
  | st, _, [] => st
  | st, isFirst, w :: ws =>
      wrapRunsWords r font_size max_width run
        (wrapRunsWord r font_size max_width run st isFirst w) false ws

/-- `SVGRenderer._wrap_runs`. -/
def SVGRenderer.wrap_runs (r : SVGRenderer) (runs : List TextRun)
    (max_width font_size : ℚ) : List (List TextRun) :=
  if runs = [] then []
  else
    let final := runs.foldl
      (fun st run =>
        wrapRunsWords r font_size max_width run st true (splitOnChar ' ' run.text))
      ⟨[], [], 0⟩
    final.done ++ [final.cur.reverse]

/-- `SVGRenderer._render_text_block`. -/
def SVGRenderer.render_text_block (r : SVGRenderer) (spans : List Span)
    (ctx : RenderContext) (font_size : ℚ) (css_class font_weight : String) :
    List SvgElem × ℚ :=
  if spans = [] then ([], 0)
  else
    let line_height := font_size * r.style.line_height
    let runs := build_text_runs spans font_size
    let lines := r.wrap_runs runs ctx.width font_size
    let elems := (lines.foldl
      (fun (acc : List SvgElem × ℚ) line_runs =>
        if line_runs = [] then (acc.1, acc.2 + line_height)
        else
          (acc.1 ++ [SvgElem.textLine ctx.x acc.2 font_size css_class font_weight
            (line_runs.filter (fun run => !run.text.isEmpty))],
           acc.2 + line_height))
      ([], ctx.y + font_size)).1
    (elems, (lines.length : ℚ) * line_height)

/-- `SVGRenderer._render_paragraph`. -/
def SVGRenderer.render_paragraph (r : SVGRenderer) (spans : List Span)
    (ctx : RenderContext) : List SvgElem × ℚ :=
  r.render_text_block spans ctx r.style.base_font_size "md-text" "normal"

/-- `SVGRenderer._render_heading`. -/
def SVGRenderer.render_heading (r : SVGRenderer) (level : Int) (spans : List Span)
    (ctx : RenderContext) : List SvgElem × ℚ :=
  let scale := r.style.get_heading_scale level
  let font_size := r.style.base_font_size * scale
  let margin_top := font_size * r.style.heading_margin_top
  let margin_bottom := font_size * r.style.heading_margin_bottom
  let res := r.render_text_block spans (ctx.with_offset 0 margin_top) font_size
    "md-heading" r.style.heading_font_weight
  (res.1, margin_top + res.2 + margin_bottom)

/-- `SVGRenderer._render_code_block_simple` (show, hide and ellipsis modes). -/
def SVGRenderer.render_code_block_simple (r : SVGRenderer) (code : List Char)
    (ctx : RenderContext) (overflow : CodeBlockOverflow) : List SvgElem × ℚ :=
  let padding := r.style.code_block_padding
  let font_size := r.style.base_font_size * 0.9
  let line_height := font_size * 1.4
  let char_width := font_size * r.style.mono_char_width_ratio
  let max_chars := pyTrunc ((ctx.width - padding * 2) / char_width)
  let lines0 := splitOnChar '\n' code
  let lines :=
    if overflow = .ellipsis then
      lines0.map (fun line =>
        if (line.length : Int) > max_chars ∧ max_chars > 3 then
          line.take (max_chars - 3).toNat ++ "...".data
        else line)
    else lines0
  let text_height := (lines.length : ℚ) * line_height
  let total_height := text_height + padding * 2
  let clipElems :=
    if overflow = .hide then [SvgElem.defsClipPath ctx.x ctx.y ctx.width total_height]
    else []
  let bg := SvgElem.rect ctx.x ctx.y ctx.width total_height r.style.code_background
    (some r.style.code_block_border_radius) none
  let textElems := (lines.foldl
    (fun (acc : List SvgElem × ℚ) line =>
      (if !line.isEmpty then
        acc.1 ++ [SvgElem.codeText (ctx.x + padding) acc.2 font_size line]
       else acc.1,
       acc.2 + line_height))
    ([], ctx.y + padding + font_size)).1
  (clipElems ++ [bg] ++ textElems, total_height)

/-- The chunking loop `while line: append(line[:max_chars]); line = line[max_chars:]`
of `_render_code_block_wrapped`, with fuel (max_chars is at least 10, so
each step consumes characters). -/
def chunkEveryAux (n : Nat) : Nat → List Char → List (List Char)
  | 0, _ => []
  | _, [] => []
  | fuel + 1, line => line.take n :: chunkEveryAux n fuel (line.drop n)

/-- The chunks of `line` of `n` characters each. -/
def chunkEvery (n : Nat) (line : List Char) : List (List Char) :=
  chunkEveryAux n (line.length + 1) line

/-- `SVGRenderer._render_code_block_wrapped`. -/
def SVGRenderer.render_code_block_wrapped (r : SVGRenderer) (code : List Char)
    (ctx : RenderContext) : List SvgElem × ℚ :=
  let padding := r.style.code_block_padding
  let font_size := r.style.base_font_size * 0.9
  let line_height := font_size * 1.4
  let char_width := font_size * r.style.mono_char_width_ratio
  let max_chars := max 10 (pyTrunc ((ctx.width - padding * 2) / char_width))
  let wrapped_lines := (splitOnChar '\n' code).foldl
    (fun acc line =>
      if line = [] then acc ++ [([] : List Char)]
      else if (line.length : Int) ≤ max_chars then acc ++ [line]
      else acc ++ chunkEvery max_chars.toNat line)
    []
  let text_height := (wrapped_lines.length : ℚ) * line_height
  let total_height := text_height + padding * 2
  let bg := SvgElem.rect ctx.x ctx.y ctx.width total_height r.style.code_background
    (some r.style.code_block_border_radius) none
  let textElems := (wrapped_lines.foldl
    (fun (acc : List SvgElem × ℚ) line =>
      (if !line.isEmpty then
        acc.1 ++ [SvgElem.codeText (ctx.x + padding) acc.2 font_size line]
       else acc.1,
       acc.2 + line_height))
    ([], ctx.y + padding + font_size)).1
  (bg :: textElems, total_height)

/-- `SVGRenderer._render_code_block` (the dispatch on overflow mode; the
defensive fallback wraps). -/
def SVGRenderer.render_code_block (r : SVGRenderer) (code : List Char)
    (ctx : RenderContext) : List SvgElem × ℚ :=
  match r.style.code_block_overflow with
  | .wrap => r.render_code_block_wrapped code ctx
  | .show => r.render_code_block_simple code ctx .show
  | .hide => r.render_code_block_simple code ctx .hide
  | .ellipsis => r.render_code_block_simple code ctx .ellipsis
  | .foreignObject => r.render_code_block_wrapped code ctx

/-- `SVGRenderer._render_unordered_list`. -/
def SVGRenderer.render_unordered_list (r : SVGRenderer) (items : List ListItem)
    (ctx : RenderContext) : List SvgElem × ℚ :=
  let bullet_indent := r.style.list_indent
  let res := items.foldl
    (fun (acc : List SvgElem × ℚ) item =>
      let bullet_x := ctx.x + bullet_indent / 2 - 4
      let bullet_y := ctx.y + acc.2 + r.style.base_font_size * r.style.line_height / 2
      let item_ctx := (ctx.with_indent bullet_indent).with_offset 0 acc.2
      let spans := match item with | ListItem.mk spans _ => spans
      let tr := r.render_text_block spans item_ctx r.style.base_font_size
        "md-text" "normal"
      (acc.1 ++ [SvgElem.circle bullet_x bullet_y 3 r.style.text_color] ++ tr.1,
       acc.2 + tr.2 + r.style.list_item_spacing))
    ([], 0)
  (res.1, if items.isEmpty then res.2 else res.2 - r.style.list_item_spacing)

/-- `SVGRenderer._render_ordered_list`. -/
def SVGRenderer.render_ordered_list (r : SVGRenderer) (items : List ListItem)
    (start : Int) (ctx : RenderContext) : List SvgElem × ℚ :=
  let bullet_indent := r.style.list_indent
  let res := items.foldl
    (fun (acc : List SvgElem × ℚ × Int) item =>
      let idx := acc.2.2
      let number := start + idx
      let number_x := ctx.x + bullet_indent - 8
      let number_y := ctx.y + acc.2.1 + r.style.base_font_size
      let item_ctx := (ctx.with_indent bullet_indent).with_offset 0 acc.2.1
      let spans := match item with | ListItem.mk spans _ => spans
      let tr := r.render_text_block spans item_ctx r.style.base_font_size
        "md-text" "normal"
      (acc.1 ++ [SvgElem.numberText number_x number_y r.style.base_font_size number]
        ++ tr.1,
       (acc.2.1 + tr.2 + r.style.list_item_spacing, idx + 1)))
    ([], 0, 0)
  (res.1, if items.isEmpty then res.2.1 else res.2.1 - r.style.list_item_spacing)

/-- `SVGRenderer._render_horizontal_rule`. -/
def SVGRenderer.render_horizontal_rule (r : SVGRenderer) (ctx : RenderContext) :
    List SvgElem × ℚ :=
  let height := r.style.hr_height
  let margin := r.style.paragraph_spacing
  let y_pos := ctx.y + margin
  ([SvgElem.rect ctx.x y_pos ctx.width height r.style.hr_color none none],
   margin + height + margin)

/-- `SVGRenderer._render_table_row` (appends cell text elements only). -/
def SVGRenderer.render_table_row_elems (r : SVGRenderer) (row : TableRow)
    (start_x y col_width row_height padding font_size : ℚ)
    (alignments : List (Option (List Char))) (is_header : Bool) : List SvgElem :=
  let _ := row_height
  let text_y := y + padding + font_size
  (row.cells.foldl
    (fun (acc : List SvgElem × ℚ × Nat) cell =>
      let x := acc.2.1
      let idx := acc.2.2
      let text := List.join (cell.spans.map (fun sp => sp.text))
      let align := alignments.getD idx none
      let ta :=
        if align = some "center".data then (x + col_width / 2, "middle")
        else if align = some "right".data then (x + col_width - padding, "end")
        else (x + padding, "start")
      (acc.1 ++ [SvgElem.cellText ta.1 text_y font_size ta.2 is_header text],
       (x + col_width, idx + 1)))
    ([], start_x, 0)).1

/-- `SVGRenderer._render_table`. -/
def SVGRenderer.render_table (r : SVGRenderer) (header : TableRow)
    (rows : List TableRow) (alignments : List (Option (List Char)))
    (ctx : RenderContext) : List SvgElem × ℚ :=
  let padding := r.style.table_cell_padding
  let font_size := r.style.base_font_size
  let row_height := font_size * r.style.line_height + padding * 2
  let num_cols := header.cells.length
  let col_width := if num_cols > 0 then ctx.width / (num_cols : ℚ) else ctx.width
  let headerBg := SvgElem.rect ctx.x ctx.y ctx.width row_height
    r.style.table_header_background none none
  let headerEls := r.render_table_row_elems header ctx.x ctx.y col_width row_height
    padding font_size alignments true
  let bodyRes := rows.foldl
    (fun (acc : List SvgElem × ℚ) row =>
      (acc.1 ++ r.render_table_row_elems row ctx.x acc.2 col_width row_height
        padding font_size alignments false,
       acc.2 + row_height))
    ([], ctx.y + row_height)
  let current_y := bodyRes.2
  let total_height := current_y - ctx.y
  let border := SvgElem.rect ctx.x ctx.y ctx.width total_height "none" none
    (some r.style.table_border_color)
  let colSeps := ((List.range (num_cols - 1)).foldl
    (fun (acc : List SvgElem × ℚ) _ =>
      let col_x := acc.2 + col_width
      (acc.1 ++ [SvgElem.line col_x ctx.y col_x current_y r.style.table_border_color],
       col_x))
    ([], ctx.x)).1
  let rowSeps := ((List.range (rows.length + 1)).foldl
    (fun (acc : List SvgElem × ℚ) _ =>
      let row_y := acc.2 + row_height
      (if row_y < current_y then
        acc.1 ++ [SvgElem.line ctx.x row_y (ctx.x + ctx.width) row_y
          r.style.table_border_color]
       else acc.1,
       row_y))
    ([], ctx.y)).1
  (headerBg :: headerEls ++ bodyRes.1 ++ [border] ++ colSeps ++ rowSeps, total_height)

mutual

/-- `SVGRenderer._render_block`.  The image-block branch probes the image
size (pure, no effect on the result) and then reads `img.width`, a field
`types.ImageBlock` does not have, so it raises AttributeError. -/
def SVGRenderer.render_block (r : SVGRenderer) :
    Block → RenderContext → Except RErr (List SvgElem × ℚ)
  | Block.paragraph spans, ctx => .ok (r.render_paragraph spans ctx)
  | Block.heading level spans, ctx => .ok (r.render_heading level spans ctx)
  | Block.code_block code _lang, ctx => .ok (r.render_code_block code ctx)
  | Block.blockquote bs, ctx =>
      let indent := r.style.blockquote_padding
      let inner_ctx := ctx.with_indent indent
      (r.render_quote_blocks bs inner_ctx 0).bind (fun res =>
        let total_height :=
          if bs.isEmpty then res.2 else res.2 - r.style.paragraph_spacing
        .ok (SvgElem.rect ctx.x ctx.y r.style.blockquote_border_width total_height
          r.style.blockquote_border_color none none :: res.1, total_height))
  | Block.unordered_list items, ctx => .ok (r.render_unordered_list items ctx)
  | Block.ordered_list items start, ctx => .ok (r.render_ordered_list items start ctx)
  | Block.horizontal_rule, ctx => .ok (r.render_horizontal_rule ctx)
  | Block.table header rows aligns, ctx => .ok (r.render_table header rows aligns ctx)
  | Block.image_block url _alt _title, _ctx =>
      let _ := r.get_image_size url
      .error (.attributeError "ImageBlock object has no attribute width")

/-- The inner-block loop of `SVGRenderer._render_blockquote` (accumulated
elements and the final `current_y`). -/
def SVGRenderer.render_quote_blocks (r : SVGRenderer) :
    List Block → RenderContext → ℚ → Except RErr (List SvgElem × ℚ)
  | [], _, current_y => .ok ([], current_y)
  | b :: rest, inner_ctx, current_y =>
      (r.render_block b (inner_ctx.with_offset 0 current_y)).bind (fun res =>
        (r.render_quote_blocks rest inner_ctx
            (current_y + res.2 + r.style.paragraph_spacing)).bind (fun res2 =>
          .ok (res.1 ++ res2.1, res2.2)))

end

/-- The block loop of `SVGRenderer.render` (accumulated svg elements and
the final `current_y`). -/
def SVGRenderer.render_loop (r : SVGRenderer) (ctx : RenderContext) :
    List Block → ℚ → Except RErr (List SvgElem × ℚ)
  | [], current_y => .ok ([], current_y)
  | b :: rest, current_y =>
      (r.render_block b (ctx.with_offset 0 (current_y - ctx.y))).bind (fun res =>
        (r.render_loop ctx rest
            (current_y + res.2 + r.style.paragraph_spacing)).bind (fun res2 =>
          .ok (res.1 ++ res2.1, res2.2)))

/-- The block loop of `SVGRenderer.measure` (the elements are discarded;
only the final `current_y` is kept). -/
def SVGRenderer.measure_loop (r : SVGRenderer) (ctx : RenderContext) :
    List Block → ℚ → Except RErr ℚ
  | [], current_y => .ok current_y
  | b :: rest, current_y =>
      (r.render_block b (ctx.with_offset 0 (current_y - ctx.y))).bind (fun res =>
        r.measure_loop ctx rest (current_y + res.2 + r.style.paragraph_spacing))

/-- The SVG document `_build_svg` assembles: the envelope stamps `width`
and `height` (and the same viewBox); the `<style>` block and string
assembly are presentation-only. -/
structure Svg where
  elements : List SvgElem
  width : ℚ
  height : ℚ

/-- `SVGRenderer.render`. -/
def SVGRenderer.render (r : SVGRenderer) (blocks : List Block)
    (width padding : ℚ) : Except RErr Svg :=
  let content_width := width - padding * 2
  let ctx : RenderContext :=
    { x := padding, y := padding, width := content_width, style := r.style }
  (r.render_loop ctx blocks padding).bind (fun res =>
    let current_y :=
      if blocks.isEmpty then res.2 else res.2 - r.style.paragraph_spacing
    let total_height := current_y + padding
    .ok { elements := res.1, width := width, height := total_height })

/-- `SVGRenderer.measure`. -/
def SVGRenderer.measure (r : SVGRenderer) (blocks : List Block)
    (width padding : ℚ) : Except RErr Size :=
  let content_width := width - padding * 2
  let ctx : RenderContext :=
    { x := padding, y := padding, width := content_width, style := r.style }
  (r.measure_loop ctx blocks padding).bind (fun current_y0 =>
    let current_y :=
      if blocks.isEmpty then current_y0 else current_y0 - r.style.paragraph_spacing
    .ok { width := width, height := current_y + padding })

end Mdsvg

open Mdsvg

namespace Mdsvg

lemma estimateCharWidth_double (c : Char) (fs : ℚ) (b m : Bool) (rc bc : ℚ) :
    estimateCharWidth c (2 * fs) b m rc bc = 2 * estimateCharWidth c fs b m rc bc := by
  unfold estimateCharWidth
  split_ifs <;> ring

lemma estimateCharWidth_mono (c : Char) (fs : ℚ) (b : Bool) (rc bc : ℚ) :
    estimateCharWidth c fs b true rc bc = fs * 0.6 := by
  unfold estimateCharWidth
  simp

lemma estimateTextWidth_nil (fs : ℚ) (b m : Bool) (rc bc : ℚ) :
    estimateTextWidth [] fs b m rc bc = 0 := by
  simp [estimateTextWidth]

lemma estimateTextWidth_cons (c : Char) (t : List Char) (fs : ℚ) (b m : Bool) (rc bc : ℚ) :
    estimateTextWidth (c :: t) fs b m rc bc =
      estimateCharWidth c fs b m rc bc + estimateTextWidth t fs b m rc bc := by
  simp [estimateTextWidth]

lemma estimateTextWidth_append (s t : List Char) (fs : ℚ) (b m : Bool) (rc bc : ℚ) :
    estimateTextWidth (s ++ t) fs b m rc bc =
      estimateTextWidth s fs b m rc bc + estimateTextWidth t fs b m rc bc := by
  simp [estimateTextWidth]

end Mdsvg

/-- C10: the heuristic text width is a homomorphism from string concatenation
to addition: `estimate_text_width(s + t) = estimate_text_width(s) +
estimate_text_width(t)` for all strings and parameter choices, and
`estimate_text_width("") = 0`. -/
theorem estimate_text_width_additive :
    ∀ (s t : List Char) (fs : ℚ) (b m : Bool) (rc bc : ℚ),
      estimateTextWidth (s ++ t) fs b m rc bc =
        estimateTextWidth s fs b m rc bc + estimateTextWidth t fs b m rc bc ∧
      estimateTextWidth [] fs b m rc bc = 0 := by
  intro s t fs b m rc bc
  exact ⟨estimateTextWidth_append s t fs b m rc bc, estimateTextWidth_nil fs b m rc bc⟩

/-- C8: under the heuristic backend the estimated width scales linearly with
font size: for every text, every font size `F > 0` and every fixed choice of
bold/mono flags and width ratios,
`estimate_text_width(T, 2F) = 2 * estimate_text_width(T, F)`. -/
theorem estimate_text_width_linear_in_font_size :
    ∀ (t : List Char) (fs : ℚ) (b m : Bool) (rc bc : ℚ), 0 < fs →
      estimateTextWidth t (2 * fs) b m rc bc = 2 * estimateTextWidth t fs b m rc bc := by
  intro t fs b m rc bc _
  induction t with
  | nil => simp [estimateTextWidth]
  | cons c cs ih =>
      rw [estimateTextWidth_cons, estimateTextWidth_cons, estimateCharWidth_double, ih]
      ring

/-- Witness for C8 at `T = "Hi mw"`, `F = 7`, bold, default ratios. -/
theorem estimate_text_width_linear_in_font_size_witness :
    (0 : ℚ) < 7 ∧
      estimateTextWidth "Hi mw".data (2 * 7) true false 0.48 0.52 =
        2 * estimateTextWidth "Hi mw".data 7 true false 0.48 0.52 :=
  ⟨by norm_num,
   estimate_text_width_linear_in_font_size "Hi mw".data 7 true false 0.48 0.52 (by norm_num)⟩

/-- C9: under the monospace heuristic every character contributes the same
width: for non-empty `T`,
`estimate_text_width(T, F, is_mono=True) = len(T) * estimate_text_width("x", F, is_mono=True)`. -/
theorem estimate_text_width_mono_uniform :
    ∀ (t : List Char) (fs : ℚ) (b : Bool) (rc bc : ℚ), t ≠ [] →
      estimateTextWidth t fs b true rc bc =
        (t.length : ℚ) * estimateTextWidth "x".data fs b true rc bc := by
  intro t fs b rc bc _
  have hx : estimateTextWidth "x".data fs b true rc bc = fs * 0.6 := by
    simp [estimateTextWidth, estimateCharWidth_mono]
  have key : ∀ u : List Char,
      estimateTextWidth u fs b true rc bc = (u.length : ℚ) * (fs * 0.6) := by
    intro u
    induction u with
    | nil => simp [estimateTextWidth]
    | cons c cs ih =>
        rw [estimateTextWidth_cons, estimateCharWidth_mono, ih, List.length_cons]
        push_cast
        ring
  rw [key, hx]

/-- Witness for C9 at `T = "ab,"`, `F = 5`. -/
theorem estimate_text_width_mono_uniform_witness :
    "ab,".data ≠ [] ∧
      estimateTextWidth "ab,".data 5 false true 0.48 0.52 =
        ("ab,".data.length : ℚ) * estimateTextWidth "x".data 5 false true 0.48 0.52 :=
  ⟨by decide,
   estimate_text_width_mono_uniform "ab,".data 5 false 0.48 0.52 (by decide)⟩

namespace Mdsvg

lemma find?_append_or {α : Type} (p : α → Bool) (l₁ l₂ : List α) :
    (l₁ ++ l₂).find? p = ((l₁.find? p).orElse (fun _ => l₂.find? p)) := by
  induction l₁ with
  | nil => simp
  | cons a l ih =>
      by_cases h : p a
      · simp [List.find?_cons_of_pos _ h, h, Option.orElse]
      · simp only [List.cons_append, List.find?_cons_of_neg _ h, ih]

lemma mergeStylesStep_foldl_proj {α : Type} [DecidableEq α] (proj : Style → α)
    (h : ∀ acc s, proj (mergeStylesStep acc s) =
      if proj s ≠ proj defaultStyle then proj s else proj acc) :
    ∀ (styles : List Style) (acc : Style),
      proj (styles.foldl mergeStylesStep acc) =
        ((styles.map proj).reverse.find? (fun v => decide (v ≠ proj defaultStyle))).getD
          (proj acc) := by
  intro styles
  induction styles with
  | nil => intro acc; simp
  | cons s rest ih =>
      intro acc
      rw [List.foldl_cons, ih (mergeStylesStep acc s), List.map_cons, List.reverse_cons,
        find?_append_or]
      cases hfind :
          (rest.map proj).reverse.find? (fun v => decide (v ≠ proj defaultStyle)) with
      | some v => simp [Option.orElse]
      | none =>
          simp only [Option.orElse, Option.getD]
          rw [h acc s]
          by_cases hs : proj s = proj defaultStyle
          · simp [List.find?, hs]
          · simp [List.find?, hs]

end Mdsvg

/-- C5: for every sequence of Style values, every field of
`merge_styles(*styles)` equals the value of the last argument whose value for
that field differs from the default Style, or the default value when no
argument differs (later styles win ties; default-valued fields of later
styles do not override earlier non-default values). -/
theorem merge_styles_last_non_default_per_field :
    ∀ styles : List Mdsvg.Style,
      (mergeStyles styles).font_family =
        lastNonDefault (styles.map (·.font_family)) defaultStyle.font_family ∧
      (mergeStyles styles).mono_font_family =
        lastNonDefault (styles.map (·.mono_font_family)) defaultStyle.mono_font_family ∧
      (mergeStyles styles).base_font_size =
        lastNonDefault (styles.map (·.base_font_size)) defaultStyle.base_font_size ∧
      (mergeStyles styles).line_height =
        lastNonDefault (styles.map (·.line_height)) defaultStyle.line_height ∧
      (mergeStyles styles).text_color =
        lastNonDefault (styles.map (·.text_color)) defaultStyle.text_color ∧
      (mergeStyles styles).heading_color =
        lastNonDefault (styles.map (·.heading_color)) defaultStyle.heading_color ∧
      (mergeStyles styles).link_color =
        lastNonDefault (styles.map (·.link_color)) defaultStyle.link_color ∧
      (mergeStyles styles).link_underline =
        lastNonDefault (styles.map (·.link_underline)) defaultStyle.link_underline ∧
      (mergeStyles styles).code_color =
        lastNonDefault (styles.map (·.code_color)) defaultStyle.code_color ∧
      (mergeStyles styles).code_background =
        lastNonDefault (styles.map (·.code_background)) defaultStyle.code_background ∧
      (mergeStyles styles).blockquote_color =
        lastNonDefault (styles.map (·.blockquote_color)) defaultStyle.blockquote_color ∧
      (mergeStyles styles).blockquote_border_color =
        lastNonDefault (styles.map (·.blockquote_border_color)) defaultStyle.blockquote_border_color ∧
      (mergeStyles styles).h1_scale =
        lastNonDefault (styles.map (·.h1_scale)) defaultStyle.h1_scale ∧
      (mergeStyles styles).h2_scale =
        lastNonDefault (styles.map (·.h2_scale)) defaultStyle.h2_scale ∧
      (mergeStyles styles).h3_scale =
        lastNonDefault (styles.map (·.h3_scale)) defaultStyle.h3_scale ∧
      (mergeStyles styles).h4_scale =
        lastNonDefault (styles.map (·.h4_scale)) defaultStyle.h4_scale ∧
      (mergeStyles styles).h5_scale =
        lastNonDefault (styles.map (·.h5_scale)) defaultStyle.h5_scale ∧
      (mergeStyles styles).h6_scale =
        lastNonDefault (styles.map (·.h6_scale)) defaultStyle.h6_scale ∧
      (mergeStyles styles).heading_font_weight =
        lastNonDefault (styles.map (·.heading_font_weight)) defaultStyle.heading_font_weight ∧
      (mergeStyles styles).heading_margin_top =
        lastNonDefault (styles.map (·.heading_margin_top)) defaultStyle.heading_margin_top ∧
      (mergeStyles styles).heading_margin_bottom =
        lastNonDefault (styles.map (·.heading_margin_bottom)) defaultStyle.heading_margin_bottom ∧
      (mergeStyles styles).paragraph_spacing =
        lastNonDefault (styles.map (·.paragraph_spacing)) defaultStyle.paragraph_spacing ∧
      (mergeStyles styles).list_indent =
        lastNonDefault (styles.map (·.list_indent)) defaultStyle.list_indent ∧
      (mergeStyles styles).list_item_spacing =
        lastNonDefault (styles.map (·.list_item_spacing)) defaultStyle.list_item_spacing ∧
      (mergeStyles styles).code_block_padding =
        lastNonDefault (styles.map (·.code_block_padding)) defaultStyle.code_block_padding ∧
      (mergeStyles styles).code_block_border_radius =
        lastNonDefault (styles.map (·.code_block_border_radius)) defaultStyle.code_block_border_radius ∧
      (mergeStyles styles).code_block_overflow =
        lastNonDefault (styles.map (·.code_block_overflow)) defaultStyle.code_block_overflow ∧
      (mergeStyles styles).blockquote_padding =
        lastNonDefault (styles.map (·.blockquote_padding)) defaultStyle.blockquote_padding ∧
      (mergeStyles styles).blockquote_border_width =
        lastNonDefault (styles.map (·.blockquote_border_width)) defaultStyle.blockquote_border_width ∧
      (mergeStyles styles).table_border_color =
        lastNonDefault (styles.map (·.table_border_color)) defaultStyle.table_border_color ∧
      (mergeStyles styles).table_header_background =
        lastNonDefault (styles.map (·.table_header_background)) defaultStyle.table_header_background ∧
      (mergeStyles styles).table_cell_padding =
        lastNonDefault (styles.map (·.table_cell_padding)) defaultStyle.table_cell_padding ∧
      (mergeStyles styles).hr_color =
        lastNonDefault (styles.map (·.hr_color)) defaultStyle.hr_color ∧
      (mergeStyles styles).hr_height =
        lastNonDefault (styles.map (·.hr_height)) defaultStyle.hr_height ∧
      (mergeStyles styles).image_width =
        lastNonDefault (styles.map (·.image_width)) defaultStyle.image_width ∧
      (mergeStyles styles).image_height =
        lastNonDefault (styles.map (·.image_height)) defaultStyle.image_height ∧
      (mergeStyles styles).image_fallback_aspect_ratio =
        lastNonDefault (styles.map (·.image_fallback_aspect_ratio)) defaultStyle.image_fallback_aspect_ratio ∧
      (mergeStyles styles).image_enforce_aspect_ratio =
        lastNonDefault (styles.map (·.image_enforce_aspect_ratio)) defaultStyle.image_enforce_aspect_ratio ∧
      (mergeStyles styles).char_width_ratio =
        lastNonDefault (styles.map (·.char_width_ratio)) defaultStyle.char_width_ratio ∧
      (mergeStyles styles).bold_char_width_ratio =
        lastNonDefault (styles.map (·.bold_char_width_ratio)) defaultStyle.bold_char_width_ratio ∧
      (mergeStyles styles).italic_char_width_ratio =
        lastNonDefault (styles.map (·.italic_char_width_ratio)) defaultStyle.italic_char_width_ratio ∧
      (mergeStyles styles).mono_char_width_ratio =
        lastNonDefault (styles.map (·.mono_char_width_ratio)) defaultStyle.mono_char_width_ratio ∧
      (mergeStyles styles).text_width_scale =
        lastNonDefault (styles.map (·.text_width_scale)) defaultStyle.text_width_scale := by
  intro styles
  have hm : mergeStyles styles = styles.foldl mergeStylesStep defaultStyle := by
    unfold mergeStyles
    by_cases h : styles = []
    · subst h; simp
    · simp [h]
  have h_font_family : (mergeStyles styles).font_family =
      lastNonDefault (styles.map (·.font_family)) defaultStyle.font_family := by
    unfold lastNonDefault
    rw [hm]
    exact mergeStylesStep_foldl_proj _ (fun _ _ => rfl) styles defaultStyle
  have h_mono_font_family : (mergeStyles styles).mono_font_family =
      lastNonDefault (styles.map (·.mono_font_family)) defaultStyle.mono_font_family := by
    unfold lastNonDefault
    rw [hm]
    exact mergeStylesStep_foldl_proj _ (fun _ _ => rfl) styles defaultStyle
  have h_base_font_size : (mergeStyles styles).base_font_size =
      lastNonDefault (styles.map (·.base_font_size)) defaultStyle.base_font_size := by
    unfold lastNonDefault
    rw [hm]
    exact mergeStylesStep_foldl_proj _ (fun _ _ => rfl) styles defaultStyle
  have h_line_height : (mergeStyles styles).line_height =
      lastNonDefault (styles.map (·.line_height)) defaultStyle.line_height := by
    unfold lastNonDefault
    rw [hm]
    exact mergeStylesStep_foldl_proj _ (fun _ _ => rfl) styles defaultStyle
  have h_text_color : (mergeStyles styles).text_color =
      lastNonDefault (styles.map (·.text_color)) defaultStyle.text_color := by
    unfold lastNonDefault
    rw [hm]
    exact mergeStylesStep_foldl_proj _ (fun _ _ => rfl) styles defaultStyle
  have h_heading_color : (mergeStyles styles).heading_color =
      lastNonDefault (styles.map (·.heading_color)) defaultStyle.heading_color := by
    unfold lastNonDefault
    rw [hm]
    exact mergeStylesStep_foldl_proj _ (fun _ _ => rfl) styles defaultStyle
  have h_link_color : (mergeStyles styles).link_color =
      lastNonDefault (styles.map (·.link_color)) defaultStyle.link_color := by
    unfold lastNonDefault
    rw [hm]
    exact mergeStylesStep_foldl_proj _ (fun _ _ => rfl) styles defaultStyle
  have h_link_underline : (mergeStyles styles).link_underline =
      lastNonDefault (styles.map (·.link_underline)) defaultStyle.link_underline := by
    unfold lastNonDefault
    rw [hm]
    exact mergeStylesStep_foldl_proj _ (fun _ _ => rfl) styles defaultStyle
  have h_code_color : (mergeStyles styles).code_color =
      lastNonDefault (styles.map (·.code_color)) defaultStyle.code_color := by
    unfold lastNonDefault
    rw [hm]
    exact mergeStylesStep_foldl_proj _ (fun _ _ => rfl) styles defaultStyle
  have h_code_background : (mergeStyles styles).code_background =
      lastNonDefault (styles.map (·.code_background)) defaultStyle.code_background := by
    unfold lastNonDefault
    rw [hm]
    exact mergeStylesStep_foldl_proj _ (fun _ _ => rfl) styles defaultStyle
  have h_blockquote_color : (mergeStyles styles).blockquote_color =
      lastNonDefault (styles.map (·.blockquote_color)) defaultStyle.blockquote_color := by
    unfold lastNonDefault
    rw [hm]
    exact mergeStylesStep_foldl_proj _ (fun _ _ => rfl) styles defaultStyle
  have h_blockquote_border_color : (mergeStyles styles).blockquote_border_color =
      lastNonDefault (styles.map (·.blockquote_border_color)) defaultStyle.blockquote_border_color := by
    unfold lastNonDefault
    rw [hm]
    exact mergeStylesStep_foldl_proj _ (fun _ _ => rfl) styles defaultStyle
  have h_h1_scale : (mergeStyles styles).h1_scale =
      lastNonDefault (styles.map (·.h1_scale)) defaultStyle.h1_scale := by
    unfold lastNonDefault
    rw [hm]
    exact mergeStylesStep_foldl_proj _ (fun _ _ => rfl) styles defaultStyle
  have h_h2_scale : (mergeStyles styles).h2_scale =
      lastNonDefault (styles.map (·.h2_scale)) defaultStyle.h2_scale := by
    unfold lastNonDefault
    rw [hm]
    exact mergeStylesStep_foldl_proj _ (fun _ _ => rfl) styles defaultStyle
  have h_h3_scale : (mergeStyles styles).h3_scale =
      lastNonDefault (styles.map (·.h3_scale)) defaultStyle.h3_scale := by
    unfold lastNonDefault
    rw [hm]
    exact mergeStylesStep_foldl_proj _ (fun _ _ => rfl) styles defaultStyle
  have h_h4_scale : (mergeStyles styles).h4_scale =
      lastNonDefault (styles.map (·.h4_scale)) defaultStyle.h4_scale := by
    unfold lastNonDefault
    rw [hm]
    exact mergeStylesStep_foldl_proj _ (fun _ _ => rfl) styles defaultStyle
  have h_h5_scale : (mergeStyles styles).h5_scale =
      lastNonDefault (styles.map (·.h5_scale)) defaultStyle.h5_scale := by
    unfold lastNonDefault
    rw [hm]
    exact mergeStylesStep_foldl_proj _ (fun _ _ => rfl) styles defaultStyle
  have h_h6_scale : (mergeStyles styles).h6_scale =
      lastNonDefault (styles.map (·.h6_scale)) defaultStyle.h6_scale := by
    unfold lastNonDefault
    rw [hm]
    exact mergeStylesStep_foldl_proj _ (fun _ _ => rfl) styles defaultStyle
  have h_heading_font_weight : (mergeStyles styles).heading_font_weight =
      lastNonDefault (styles.map (·.heading_font_weight)) defaultStyle.heading_font_weight := by
    unfold lastNonDefault
    rw [hm]
    exact mergeStylesStep_foldl_proj _ (fun _ _ => rfl) styles defaultStyle
  have h_heading_margin_top : (mergeStyles styles).heading_margin_top =
      lastNonDefault (styles.map (·.heading_margin_top)) defaultStyle.heading_margin_top := by
    unfold lastNonDefault
    rw [hm]
    exact mergeStylesStep_foldl_proj _ (fun _ _ => rfl) styles defaultStyle
  have h_heading_margin_bottom : (mergeStyles styles).heading_margin_bottom =
      lastNonDefault (styles.map (·.heading_margin_bottom)) defaultStyle.heading_margin_bottom := by
    unfold lastNonDefault
    rw [hm]
    exact mergeStylesStep_foldl_proj _ (fun _ _ => rfl) styles defaultStyle
  have h_paragraph_spacing : (mergeStyles styles).paragraph_spacing =
      lastNonDefault (styles.map (·.paragraph_spacing)) defaultStyle.paragraph_spacing := by
    unfold lastNonDefault
    rw [hm]
    exact mergeStylesStep_foldl_proj _ (fun _ _ => rfl) styles defaultStyle
  have h_list_indent : (mergeStyles styles).list_indent =
      lastNonDefault (styles.map (·.list_indent)) defaultStyle.list_indent := by
    unfold lastNonDefault
    rw [hm]
    exact mergeStylesStep_foldl_proj _ (fun _ _ => rfl) styles defaultStyle
  have h_list_item_spacing : (mergeStyles styles).list_item_spacing =
      lastNonDefault (styles.map (·.list_item_spacing)) defaultStyle.list_item_spacing := by
    unfold lastNonDefault
    rw [hm]
    exact mergeStylesStep_foldl_proj _ (fun _ _ => rfl) styles defaultStyle
  have h_code_block_padding : (mergeStyles styles).code_block_padding =
      lastNonDefault (styles.map (·.code_block_padding)) defaultStyle.code_block_padding := by
    unfold lastNonDefault
    rw [hm]
    exact mergeStylesStep_foldl_proj _ (fun _ _ => rfl) styles defaultStyle
  have h_code_block_border_radius : (mergeStyles styles).code_block_border_radius =
      lastNonDefault (styles.map (·.code_block_border_radius)) defaultStyle.code_block_border_radius := by
    unfold lastNonDefault
    rw [hm]
    exact mergeStylesStep_foldl_proj _ (fun _ _ => rfl) styles defaultStyle
  have h_code_block_overflow : (mergeStyles styles).code_block_overflow =
      lastNonDefault (styles.map (·.code_block_overflow)) defaultStyle.code_block_overflow := by
    unfold lastNonDefault
    rw [hm]
    exact mergeStylesStep_foldl_proj _ (fun _ _ => rfl) styles defaultStyle
  have h_blockquote_padding : (mergeStyles styles).blockquote_padding =
      lastNonDefault (styles.map (·.blockquote_padding)) defaultStyle.blockquote_padding := by
    unfold lastNonDefault
    rw [hm]
    exact mergeStylesStep_foldl_proj _ (fun _ _ => rfl) styles defaultStyle
  have h_blockquote_border_width : (mergeStyles styles).blockquote_border_width =
      lastNonDefault (styles.map (·.blockquote_border_width)) defaultStyle.blockquote_border_width := by
    unfold lastNonDefault
    rw [hm]
    exact mergeStylesStep_foldl_proj _ (fun _ _ => rfl) styles defaultStyle
  have h_table_border_color : (mergeStyles styles).table_border_color =
      lastNonDefault (styles.map (·.table_border_color)) defaultStyle.table_border_color := by
    unfold lastNonDefault
    rw [hm]
    exact mergeStylesStep_foldl_proj _ (fun _ _ => rfl) styles defaultStyle
  have h_table_header_background : (mergeStyles styles).table_header_background =
      lastNonDefault (styles.map (·.table_header_background)) defaultStyle.table_header_background := by
    unfold lastNonDefault
    rw [hm]
    exact mergeStylesStep_foldl_proj _ (fun _ _ => rfl) styles defaultStyle
  have h_table_cell_padding : (mergeStyles styles).table_cell_padding =
      lastNonDefault (styles.map (·.table_cell_padding)) defaultStyle.table_cell_padding := by
    unfold lastNonDefault
    rw [hm]
    exact mergeStylesStep_foldl_proj _ (fun _ _ => rfl) styles defaultStyle
  have h_hr_color : (mergeStyles styles).hr_color =
      lastNonDefault (styles.map (·.hr_color)) defaultStyle.hr_color := by
    unfold lastNonDefault
    rw [hm]
    exact mergeStylesStep_foldl_proj _ (fun _ _ => rfl) styles defaultStyle
  have h_hr_height : (mergeStyles styles).hr_height =
      lastNonDefault (styles.map (·.hr_height)) defaultStyle.hr_height := by
    unfold lastNonDefault
    rw [hm]
    exact mergeStylesStep_foldl_proj _ (fun _ _ => rfl) styles defaultStyle
  have h_image_width : (mergeStyles styles).image_width =
      lastNonDefault (styles.map (·.image_width)) defaultStyle.image_width := by
    unfold lastNonDefault
    rw [hm]
    exact mergeStylesStep_foldl_proj _ (fun _ _ => rfl) styles defaultStyle
  have h_image_height : (mergeStyles styles).image_height =
      lastNonDefault (styles.map (·.image_height)) defaultStyle.image_height := by
    unfold lastNonDefault
    rw [hm]
    exact mergeStylesStep_foldl_proj _ (fun _ _ => rfl) styles defaultStyle
  have h_image_fallback_aspect_ratio : (mergeStyles styles).image_fallback_aspect_ratio =
      lastNonDefault (styles.map (·.image_fallback_aspect_ratio)) defaultStyle.image_fallback_aspect_ratio := by
    unfold lastNonDefault
    rw [hm]
    exact mergeStylesStep_foldl_proj _ (fun _ _ => rfl) styles defaultStyle
  have h_image_enforce_aspect_ratio : (mergeStyles styles).image_enforce_aspect_ratio =
      lastNonDefault (styles.map (·.image_enforce_aspect_ratio)) defaultStyle.image_enforce_aspect_ratio := by
    unfold lastNonDefault
    rw [hm]
    exact mergeStylesStep_foldl_proj _ (fun _ _ => rfl) styles defaultStyle
  have h_char_width_ratio : (mergeStyles styles).char_width_ratio =
      lastNonDefault (styles.map (·.char_width_ratio)) defaultStyle.char_width_ratio := by
    unfold lastNonDefault
    rw [hm]
    exact mergeStylesStep_foldl_proj _ (fun _ _ => rfl) styles defaultStyle
  have h_bold_char_width_ratio : (mergeStyles styles).bold_char_width_ratio =
      lastNonDefault (styles.map (·.bold_char_width_ratio)) defaultStyle.bold_char_width_ratio := by
    unfold lastNonDefault
    rw [hm]
    exact mergeStylesStep_foldl_proj _ (fun _ _ => rfl) styles defaultStyle
  have h_italic_char_width_ratio : (mergeStyles styles).italic_char_width_ratio =
      lastNonDefault (styles.map (·.italic_char_width_ratio)) defaultStyle.italic_char_width_ratio := by
    unfold lastNonDefault
    rw [hm]
    exact mergeStylesStep_foldl_proj _ (fun _ _ => rfl) styles defaultStyle
  have h_mono_char_width_ratio : (mergeStyles styles).mono_char_width_ratio =
      lastNonDefault (styles.map (·.mono_char_width_ratio)) defaultStyle.mono_char_width_ratio := by
    unfold lastNonDefault
    rw [hm]
    exact mergeStylesStep_foldl_proj _ (fun _ _ => rfl) styles defaultStyle
  have h_text_width_scale : (mergeStyles styles).text_width_scale =
      lastNonDefault (styles.map (·.text_width_scale)) defaultStyle.text_width_scale := by
    unfold lastNonDefault
    rw [hm]
    exact mergeStylesStep_foldl_proj _ (fun _ _ => rfl) styles defaultStyle
  exact ⟨h_font_family, h_mono_font_family, h_base_font_size, h_line_height, h_text_color, h_heading_color, h_link_color, h_link_underline, h_code_color, h_code_background, h_blockquote_color, h_blockquote_border_color, h_h1_scale, h_h2_scale, h_h3_scale, h_h4_scale, h_h5_scale, h_h6_scale, h_heading_font_weight, h_heading_margin_top, h_heading_margin_bottom, h_paragraph_spacing, h_list_indent, h_list_item_spacing, h_code_block_padding, h_code_block_border_radius, h_code_block_overflow, h_blockquote_padding, h_blockquote_border_width, h_table_border_color, h_table_header_background, h_table_cell_padding, h_hr_color, h_hr_height, h_image_width, h_image_height, h_image_fallback_aspect_ratio, h_image_enforce_aspect_ratio, h_char_width_ratio, h_bold_char_width_ratio, h_italic_char_width_ratio, h_mono_char_width_ratio, h_text_width_scale⟩

/-- C7: constructing a Heading succeeds exactly for levels 1–6 — in
particular `Heading(level=0)` and `Heading(level=7)` raise a validation
error while each level 1..6 yields the heading. -/
theorem heading_construction_level_1_to_6 :
    ∀ (spans : List Mdsvg.Span),
      (∀ level : Int,
        (mkHeading level spans = Except.ok (Mdsvg.Block.heading level spans) ↔
          1 ≤ level ∧ level ≤ 6)) ∧
      (∃ msg, mkHeading 0 spans = Except.error (Mdsvg.Err.valueError msg)) ∧
      (∃ msg, mkHeading 7 spans = Except.error (Mdsvg.Err.valueError msg)) := by
  intro spans
  refine ⟨fun level => ?_, ?_, ?_⟩
  · unfold mkHeading
    by_cases h : 1 ≤ level ∧ level ≤ 6
    · simp [h]
    · simp [h]
  · exact ⟨"Heading level must be 1-6", by unfold mkHeading; norm_num⟩
  · exact ⟨"Heading level must be 1-6", by unfold mkHeading; norm_num⟩

namespace Mdsvg

lemma estimateCharWidth_pos (c : Char) (fs : ℚ) (b m : Bool) (rc bc : ℚ)
    (hfs : 0 < fs) (hrc : 0 < rc) (hbc : 0 < bc) :
    0 < estimateCharWidth c fs b m rc bc := by
  unfold estimateCharWidth
  cases m with
  | true => simp; positivity
  | false =>
      cases b with
      | true => simp only [Bool.false_eq_true, if_false, if_true]; split_ifs <;> positivity
      | false => simp only [Bool.false_eq_true, if_false, if_true]; split_ifs <;> positivity

lemma estimateTextWidth_nonneg (t : List Char) (fs : ℚ) (b m : Bool) (rc bc : ℚ)
    (hfs : 0 < fs) (hrc : 0 < rc) (hbc : 0 < bc) :
    0 ≤ estimateTextWidth t fs b m rc bc := by
  apply List.sum_nonneg
  intro x hx
  obtain ⟨c, _, rfl⟩ := List.mem_map.1 hx
  exact (estimateCharWidth_pos c fs b m rc bc hfs hrc hbc).le

lemma estimateTextWidth_single (c : Char) (fs : ℚ) (b m : Bool) (rc bc : ℚ) :
    estimateTextWidth [c] fs b m rc bc = estimateCharWidth c fs b m rc bc := by
  simp [estimateTextWidth]

lemma joinSpace_snoc (cur : List (List Char)) (w : List Char) :
    joinSpace (cur ++ [w]) = if cur = [] then w else joinSpace cur ++ ' ' :: w := by
  induction cur with
  | nil => simp [joinSpace]
  | cons x xs ih =>
      cases xs with
      | nil => simp [joinSpace]
      | cons y ys =>
          simp only [List.cons_append, joinSpace, List.append_assoc, List.append_eq]
            at ih ⊢
          rw [ih]
          simp

lemma width_joinSpace_snoc (cur : List (List Char)) (w : List Char)
    (fs : ℚ) (b m : Bool) (rc bc : ℚ) :
    estimateTextWidth (joinSpace (cur ++ [w])) fs b m rc bc =
      estimateTextWidth (joinSpace cur) fs b m rc bc +
        (if cur = [] then 0 else estimateCharWidth ' ' fs b m rc bc) +
        estimateTextWidth w fs b m rc bc := by
  rw [joinSpace_snoc]
  by_cases h : cur = []
  · simp [h, joinSpace, estimateTextWidth_nil]
  · rw [if_neg h, if_neg h, estimateTextWidth_append, estimateTextWidth_cons]
    ring

lemma width_joinSpace_append (xs ys : List (List Char)) (hxs : xs ≠ [])
    (fs : ℚ) (b m : Bool) (rc bc : ℚ) :
    estimateTextWidth (joinSpace (xs ++ ys)) fs b m rc bc =
      estimateTextWidth (joinSpace xs) fs b m rc bc +
        (ys.map (fun y => estimateCharWidth ' ' fs b m rc bc +
          estimateTextWidth y fs b m rc bc)).sum := by
  induction ys generalizing xs with
  | nil => simp
  | cons y ys ih =>
      have h1 : xs ++ y :: ys = (xs ++ [y]) ++ ys := by simp
      rw [h1, ih (xs ++ [y]) (by simp), width_joinSpace_snoc, if_neg hxs, List.map_cons,
        List.sum_cons]
      ring

lemma width_joinSpace_prefix_le (xs ys : List (List Char)) (hxs : xs ≠ [])
    (fs : ℚ) (b m : Bool) (rc bc : ℚ) (hfs : 0 < fs) (hrc : 0 < rc) (hbc : 0 < bc) :
    estimateTextWidth (joinSpace xs) fs b m rc bc ≤
      estimateTextWidth (joinSpace (xs ++ ys)) fs b m rc bc := by
  rw [width_joinSpace_append xs ys hxs]
  have : 0 ≤ (ys.map (fun y => estimateCharWidth ' ' fs b m rc bc +
      estimateTextWidth y fs b m rc bc)).sum := by
    apply List.sum_nonneg
    intro x hx
    obtain ⟨y, _, rfl⟩ := List.mem_map.1 hx
    have h1 := estimateCharWidth_pos ' ' fs b m rc bc hfs hrc hbc
    have h2 := estimateTextWidth_nonneg y fs b m rc bc hfs hrc hbc
    linarith
  linarith

lemma width_head_le_joinSpace (w : List Char) (ws : List (List Char))
    (fs : ℚ) (b m : Bool) (rc bc : ℚ) (hfs : 0 < fs) (hrc : 0 < rc) (hbc : 0 < bc) :
    estimateTextWidth w fs b m rc bc ≤
      estimateTextWidth (joinSpace (w :: ws)) fs b m rc bc := by
  have h1 : w :: ws = [w] ++ ws := rfl
  have h2 : estimateTextWidth (joinSpace [w]) fs b m rc bc =
      estimateTextWidth w fs b m rc bc := rfl
  rw [h1, ← h2]
  exact width_joinSpace_prefix_le [w] ws (by simp) fs b m rc bc hfs hrc hbc

lemma splitOnSpace_ne_nil (t : List Char) : splitOnSpace t ≠ [] := by
  cases t with
  | nil => simp [splitOnSpace]
  | cons c cs =>
      unfold splitOnSpace
      by_cases h : c = ' '
      · simp [h]
      · simp only [h, if_false]
        cases splitOnSpace cs <;> simp

lemma splitOnSpace_no_space (t : List Char) : ∀ w ∈ splitOnSpace t, ' ' ∉ w := by
  induction t with
  | nil => simp [splitOnSpace]
  | cons c cs ih =>
      unfold splitOnSpace
      by_cases h : c = ' '
      · simp only [h, if_true, List.mem_cons]
        rintro w (rfl | hw)
        · simp
        · exact ih w hw
      · simp only [h, if_false]
        cases hsp : splitOnSpace cs with
        | nil => exact absurd hsp (splitOnSpace_ne_nil cs)
        | cons w ws =>
            intro v hv
            rcases List.mem_cons.1 hv with rfl | hv'
            · intro hmem
              rcases List.mem_cons.1 hmem with h1 | h1
              · exact h (h1.symm)
              · exact ih w (hsp ▸ List.mem_cons_self w ws) h1
            · exact ih v (hsp ▸ List.mem_cons_of_mem w hv')

lemma joinSpace_splitOnSpace (t : List Char) : joinSpace (splitOnSpace t) = t := by
  induction t with
  | nil => simp [splitOnSpace, joinSpace]
  | cons c cs ih =>
      unfold splitOnSpace
      by_cases h : c = ' '
      · subst h
        cases hsp : splitOnSpace cs with
        | nil => exact absurd hsp (splitOnSpace_ne_nil cs)
        | cons w ws =>
            simp only [if_true]
            rw [hsp] at ih
            calc joinSpace ([] :: w :: ws) = [] ++ ' ' :: joinSpace (w :: ws) := rfl
              _ = ' ' :: cs := by rw [ih]; rfl
      · simp only [h, if_false]
        cases hsp : splitOnSpace cs with
        | nil => exact absurd hsp (splitOnSpace_ne_nil cs)
        | cons w ws =>
            rw [hsp] at ih
            cases ws with
            | nil => simpa [joinSpace] using congrArg (c :: ·) ih
            | cons y ys =>
                calc joinSpace ((c :: w) :: y :: ys) = (c :: w) ++ ' ' :: joinSpace (y :: ys) := rfl
                  _ = c :: (w ++ ' ' :: joinSpace (y :: ys)) := by simp
                  _ = c :: joinSpace (w :: y :: ys) := rfl
                  _ = c :: cs := by rw [ih]

lemma splitOnSpace_of_no_space (w : List Char) (h : ' ' ∉ w) : splitOnSpace w = [w] := by
  induction w with
  | nil => simp [splitOnSpace]
  | cons c cs ih =>
      unfold splitOnSpace
      have hc : c ≠ ' ' := fun hc => h (hc ▸ List.mem_cons_self c cs)
      have hcs : ' ' ∉ cs := fun hm => h (List.mem_cons_of_mem c hm)
      simp only [hc, if_false, ih hcs]

lemma splitOnSpace_append_space (w t : List Char) (h : ' ' ∉ w) :
    splitOnSpace (w ++ ' ' :: t) = w :: splitOnSpace t := by
  induction w with
  | nil =>
      show splitOnSpace (' ' :: t) = [] :: splitOnSpace t
      rw [splitOnSpace]
      simp
  | cons c cs ih =>
      have hc : c ≠ ' ' := fun hc => h (hc ▸ List.mem_cons_self c cs)
      have hcs : ' ' ∉ cs := fun hm => h (List.mem_cons_of_mem c hm)
      show splitOnSpace (c :: (cs ++ ' ' :: t)) = (c :: cs) :: splitOnSpace t
      rw [splitOnSpace, ih hcs]
      simp [hc]

lemma splitOnSpace_joinSpace (ws : List (List Char)) (hne : ws ≠ [])
    (h : ∀ w ∈ ws, ' ' ∉ w) : splitOnSpace (joinSpace ws) = ws := by
  induction ws with
  | nil => exact absurd rfl hne
  | cons w ws ih =>
      cases ws with
      | nil =>
          have : joinSpace [w] = w := rfl
          rw [this, splitOnSpace_of_no_space w (h w (List.mem_cons_self w []))]
      | cons y ys =>
          have hj : joinSpace (w :: y :: ys) = w ++ ' ' :: joinSpace (y :: ys) := rfl
          rw [hj, splitOnSpace_append_space w _ (h w (List.mem_cons_self w _)),
            ih (by simp) (fun v hv => h v (List.mem_cons_of_mem w hv))]

lemma breakChunks_ne_nil (mw fs : ℚ) (b m : Bool) (rc bc : ℚ) :
    ∀ (cs chunk : List Char) (cw : ℚ), chunk ≠ [] ∨ cs ≠ [] →
      breakChunks mw fs b m rc bc cs chunk cw ≠ [] := by
  intro cs
  induction cs with
  | nil =>
      intro chunk cw h
      have hch : chunk ≠ [] := h.resolve_right (fun hc => hc rfl)
      rw [breakChunks]
      simp [hch]
  | cons c cs ih =>
      intro chunk cw _
      rw [breakChunks]
      split_ifs with hcond
      · simp
      · exact ih (chunk ++ [c]) _ (Or.inl (by simp))

lemma breakChunks_mem (mw fs : ℚ) (b m : Bool) (rc bc : ℚ)
    (hfs : 0 < fs) (hrc : 0 < rc) (hbc : 0 < bc) :
    ∀ (cs chunk : List Char) (cw : ℚ), ' ' ∉ cs → ' ' ∉ chunk →
      cw = estimateTextWidth chunk fs b m rc bc →
      (chunk = [] ∨ estimateTextWidth chunk fs b m rc bc ≤ mw ∨ chunk.length = 1) →
      ∀ ch ∈ breakChunks mw fs b m rc bc cs chunk cw,
        ' ' ∉ ch ∧ ch ≠ [] ∧
          (estimateTextWidth ch fs b m rc bc ≤ mw ∨ ch.length = 1) := by
  intro cs
  induction cs with
  | nil =>
      intro chunk cw hcs hchunk hcw hdisj ch hch
      rw [breakChunks] at hch
      by_cases hempty : chunk = []
      · simp [hempty] at hch
      · simp only [hempty, if_false, List.mem_singleton] at hch
        subst hch
        exact ⟨hchunk, hempty, hdisj.resolve_left hempty⟩
  | cons c cs ih =>
      intro chunk cw hcs hchunk hcw hdisj ch hch
      have hc : c ≠ ' ' := fun hc => hcs (hc ▸ List.mem_cons_self c cs)
      have hcs' : ' ' ∉ cs := fun hm => hcs (List.mem_cons_of_mem c hm)
      rw [breakChunks] at hch
      split_ifs at hch with hcond
      · rcases List.mem_cons.1 hch with rfl | hch'
        · exact ⟨hchunk, hcond.2, hdisj.resolve_left hcond.2⟩
        · refine ih [c] _ hcs' ?_ ?_ ?_ ch hch'
          · intro hm
            rcases List.mem_singleton.1 hm with h1
            exact hc h1.symm
          · rw [estimateTextWidth_single]
          · exact Or.inr (Or.inr rfl)
      · push_neg at hcond
        refine ih (chunk ++ [c]) _ hcs' ?_ ?_ ?_ ch hch
        · intro hm
          rcases List.mem_append.1 hm with h1 | h1
          · exact hchunk h1
          · exact hc (List.mem_singleton.1 h1).symm
        · rw [estimateTextWidth_append, estimateTextWidth_single, hcw]
        · by_cases hempty : chunk = []
          · subst hempty
            exact Or.inr (Or.inr (by simp))
          · have hle : cw + estimateCharWidth c fs b m rc bc ≤ mw := by
              by_contra hgt
              push_neg at hgt
              exact hempty (hcond hgt)
            refine Or.inr (Or.inl ?_)
            rw [estimateTextWidth_append, estimateTextWidth_single, ← hcw]
            linarith

lemma wrapLoop_all_fit (mw fs : ℚ) (b m : Bool) (rc bc : ℚ)
    (hfs : 0 < fs) (hrc : 0 < rc) (hbc : 0 < bc) :
    ∀ (rest lines cur : List (List Char)) (cw : ℚ), cur ≠ [] →
      cw = estimateTextWidth (joinSpace cur) fs b m rc bc →
      estimateTextWidth (joinSpace (cur ++ rest)) fs b m rc bc ≤ mw →
      wrapLoop mw fs b m rc bc rest lines cur cw = lines ++ [joinSpace (cur ++ rest)] := by
  intro rest
  induction rest with
  | nil =>
      intro lines cur cw hcur _ _
      rw [wrapLoop]
      simp [hcur]
  | cons w rest ih =>
      intro lines cur cw hcur hcw hle
      have hassoc : (cur ++ [w]) ++ rest = cur ++ w :: rest := by simp
      have hsnoc : estimateTextWidth (joinSpace (cur ++ [w])) fs b m rc bc =
          cw + estimateCharWidth ' ' fs b m rc bc + estimateTextWidth w fs b m rc bc := by
        rw [width_joinSpace_snoc, if_neg hcur, hcw]
      have hfit : cw + estimateCharWidth ' ' fs b m rc bc +
          estimateTextWidth w fs b m rc bc ≤ mw := by
        rw [← hsnoc]
        calc estimateTextWidth (joinSpace (cur ++ [w])) fs b m rc bc
            ≤ estimateTextWidth (joinSpace ((cur ++ [w]) ++ rest)) fs b m rc bc :=
              width_joinSpace_prefix_le (cur ++ [w]) rest (by simp) fs b m rc bc hfs hrc hbc
          _ = estimateTextWidth (joinSpace (cur ++ w :: rest)) fs b m rc bc := by
              rw [hassoc]
          _ ≤ mw := hle
      have hnotbreak : ¬(estimateTextWidth w fs b m rc bc > mw ∧ cur = []) := by
        rintro ⟨_, hc⟩
        exact hcur hc
      simp only [wrapLoop, hnotbreak, if_false, if_neg hcur]
      rw [if_pos (by linarith)]
      rw [ih lines (cur ++ [w]) _ (by simp) hsnoc.symm (by rw [hassoc]; exact hle), hassoc]

lemma getLastD_mem {α : Type} (l : List α) (d : α) (h : l ≠ []) : l.getLastD d ∈ l := by
  induction l with
  | nil => exact absurd rfl h
  | cons a l ih =>
      cases l with
      | nil => simp
      | cons b t =>
          rw [List.getLastD_cons]
          exact List.mem_cons_of_mem a (ih (by simp))

lemma wrapText_of_fits (mw fs : ℚ) (b m : Bool) (rc bc : ℚ)
    (hfs : 0 < fs) (hrc : 0 < rc) (hbc : 0 < bc)
    (ws : List (List Char)) (hne : ws ≠ []) (hsp : ∀ w ∈ ws, ' ' ∉ w)
    (hle : estimateTextWidth (joinSpace ws) fs b m rc bc ≤ mw) :
    wrapText (joinSpace ws) mw fs b m rc bc = [joinSpace ws] := by
  by_cases hj : joinSpace ws = []
  · rw [hj, wrapText]
    simp
  · cases ws with
    | nil => exact absurd rfl hne
    | cons w1 rest =>
        have hw1le : estimateTextWidth w1 fs b m rc bc ≤ mw :=
          le_trans (width_head_le_joinSpace w1 rest fs b m rc bc hfs hrc hbc) hle
        have hrun : wrapLoop mw fs b m rc bc (w1 :: rest) [] [] 0 =
            [joinSpace (w1 :: rest)] := by
          have h1 : ¬(estimateTextWidth w1 fs b m rc bc > mw) := not_lt.2 hw1le
          simp only [wrapLoop, h1, false_and, if_false, eq_self_iff_true, if_true,
            zero_add]
          rw [if_pos hw1le]
          rw [wrapLoop_all_fit mw fs b m rc bc hfs hrc hbc rest [] ([] ++ [w1]) _
            (by simp) (by simp [joinSpace]) (by simpa using hle)]
          simp
        rw [wrapText]
        rw [if_neg hj, splitOnSpace_joinSpace (w1 :: rest) hne hsp]
        simp [hrun]

lemma wrapText_single_char (mw fs : ℚ) (b m : Bool) (rc bc : ℚ)
    (hfs : 0 < fs) (hrc : 0 < rc) (hbc : 0 < bc) (c : Char) (hc : c ≠ ' ') :
    wrapText [c] mw fs b m rc bc = [[c]] := by
  have hns : ' ' ∉ [c] := by
    intro hm
    exact hc (List.mem_singleton.1 hm).symm
  by_cases hw : estimateTextWidth [c] fs b m rc bc ≤ mw
  · have h := wrapText_of_fits mw fs b m rc bc hfs hrc hbc [[c]] (by simp)
      (by simpa using hns) (by simpa [joinSpace] using hw)
    simpa [joinSpace] using h
  · push_neg at hw
    have hchunks : breakChunks mw fs b m rc bc [c] [] 0 = [[c]] := by
      rw [breakChunks]
      simp only [ne_eq, not_true_eq_false, and_false, if_false]
      rw [breakChunks]
      simp
    have hbl : breakLongWord [c] mw fs b m rc bc = [[c]] := by
      rw [breakLongWord, hchunks]
      simp
    have hrun : wrapLoop mw fs b m rc bc [[c]] [] [] 0 = [[c]] := by
      simp [wrapLoop, hbl, joinSpace, hw, List.getLastD]
    rw [wrapText]
    rw [if_neg (by simp), splitOnSpace_of_no_space [c] hns]
    simp [hrun]

lemma wrapLineOK_chunk (mw fs : ℚ) (b m : Bool) (rc bc : ℚ)
    (hfs : 0 < fs) (hrc : 0 < rc) (hbc : 0 < bc) (ch : List Char)
    (hsp : ' ' ∉ ch) (hne : ch ≠ [])
    (hdisj : estimateTextWidth ch fs b m rc bc ≤ mw ∨ ch.length = 1) :
    wrapLineOK mw fs b m rc bc ch := by
  constructor
  · exact Or.inr hsp
  · intro hante
    rcases hante with hle | hlen
    · have h := wrapText_of_fits mw fs b m rc bc hfs hrc hbc [ch] (by simp)
        (by simpa using hsp) (by simpa [joinSpace] using hle)
      simpa [joinSpace] using h
    · obtain ⟨c, rfl⟩ := List.length_eq_one.1 hlen
      exact wrapText_single_char mw fs b m rc bc hfs hrc hbc c
        (fun h => hsp (h ▸ List.mem_singleton.2 rfl))

lemma wrapLineOK_join (mw fs : ℚ) (b m : Bool) (rc bc : ℚ)
    (hfs : 0 < fs) (hrc : 0 < rc) (hbc : 0 < bc) (cur : List (List Char))
    (hcur : cur ≠ []) (hsp : ∀ w ∈ cur, ' ' ∉ w)
    (hdisj : estimateTextWidth (joinSpace cur) fs b m rc bc ≤ mw ∨ ∃ w, cur = [w]) :
    wrapLineOK mw fs b m rc bc (joinSpace cur) := by
  rcases hdisj with hle | ⟨w, rfl⟩
  · constructor
    · exact Or.inl hle
    · intro _
      exact wrapText_of_fits mw fs b m rc bc hfs hrc hbc cur hcur hsp hle
  · have hw : ' ' ∉ w := hsp w (List.mem_singleton.2 rfl)
    have hj : joinSpace [w] = w := rfl
    rw [hj]
    by_cases hwe : w = []
    · subst hwe
      constructor
      · exact Or.inr (by simp)
      · intro _
        rw [wrapText]
        simp
    · by_cases hle : estimateTextWidth w fs b m rc bc ≤ mw
      · exact wrapLineOK_chunk mw fs b m rc bc hfs hrc hbc w hw hwe (Or.inl hle)
      · constructor
        · exact Or.inr hw
        · intro hante
          rcases hante with h | hlen
          · exact absurd h hle
          · obtain ⟨c, rfl⟩ := List.length_eq_one.1 hlen
            exact wrapText_single_char mw fs b m rc bc hfs hrc hbc c
              (fun h => hw (h ▸ List.mem_singleton.2 rfl))

lemma wrapLoop_cons_break (mw fs : ℚ) (b m : Bool) (rc bc : ℚ)
    (w : List Char) (rest lines cur : List (List Char)) (cw : ℚ)
    (hcond : estimateTextWidth w fs b m rc bc > mw ∧ cur = []) :
    wrapLoop mw fs b m rc bc (w :: rest) lines cur cw =
      wrapLoop mw fs b m rc bc rest
        (lines ++ (breakLongWord w mw fs b m rc bc).dropLast)
        [(breakLongWord w mw fs b m rc bc).getLastD []]
        (estimateTextWidth ((breakLongWord w mw fs b m rc bc).getLastD [])
          fs b m rc bc) := by
  simp only [wrapLoop]
  rw [if_pos hcond]

lemma wrapLoop_cons_fit (mw fs : ℚ) (b m : Bool) (rc bc : ℚ)
    (w : List Char) (rest lines cur : List (List Char)) (cw : ℚ)
    (hcond1 : ¬(estimateTextWidth w fs b m rc bc > mw ∧ cur = []))
    (hcond2 : cw + (if cur = [] then 0 else estimateCharWidth ' ' fs b m rc bc) +
      estimateTextWidth w fs b m rc bc ≤ mw) :
    wrapLoop mw fs b m rc bc (w :: rest) lines cur cw =
      wrapLoop mw fs b m rc bc rest lines (cur ++ [w])
        (cw + (if cur = [] then 0 else estimateCharWidth ' ' fs b m rc bc) +
          estimateTextWidth w fs b m rc bc) := by
  simp only [wrapLoop]
  rw [if_neg hcond1, if_pos hcond2]

lemma wrapLoop_cons_flush (mw fs : ℚ) (b m : Bool) (rc bc : ℚ)
    (w : List Char) (rest lines cur : List (List Char)) (cw : ℚ)
    (hcond1 : ¬(estimateTextWidth w fs b m rc bc > mw ∧ cur = []))
    (hcond2 : ¬(cw + (if cur = [] then 0 else estimateCharWidth ' ' fs b m rc bc) +
      estimateTextWidth w fs b m rc bc ≤ mw)) :
    wrapLoop mw fs b m rc bc (w :: rest) lines cur cw =
      wrapLoop mw fs b m rc bc rest
        (lines ++ (if cur = [] then [] else [joinSpace cur])) [w]
        (estimateTextWidth w fs b m rc bc) := by
  simp only [wrapLoop]
  rw [if_neg hcond1, if_neg hcond2]

lemma wrapLoop_mem_ok (mw fs : ℚ) (b m : Bool) (rc bc : ℚ)
    (hfs : 0 < fs) (hrc : 0 < rc) (hbc : 0 < bc) :
    ∀ (words lines cur : List (List Char)) (cw : ℚ),
      (∀ w ∈ words, ' ' ∉ w) →
      (∀ L ∈ lines, wrapLineOK mw fs b m rc bc L) →
      (∀ w ∈ cur, ' ' ∉ w) →
      cw = estimateTextWidth (joinSpace cur) fs b m rc bc →
      (cur ≠ [] → (cw ≤ mw ∨ ∃ w, cur = [w])) →
      ∀ L ∈ wrapLoop mw fs b m rc bc words lines cur cw,
        wrapLineOK mw fs b m rc bc L := by
  intro words
  induction words with
  | nil =>
      intro lines cur cw _ hlines hcur hcw hinv L hL
      rw [wrapLoop] at hL
      rcases List.mem_append.1 hL with h | h
      · exact hlines L h
      · by_cases hc : cur = []
        · simp [hc] at h
        · simp only [hc, if_false, List.mem_singleton] at h
          subst h
          refine wrapLineOK_join mw fs b m rc bc hfs hrc hbc cur hc hcur ?_
          rcases hinv hc with hle | hx
          · exact Or.inl (hcw ▸ hle)
          · exact Or.inr hx
  | cons w rest ih =>
      intro lines cur cw hwords hlines hcur hcw hinv L hL
      have hw : ' ' ∉ w := hwords w (List.mem_cons_self _ _)
      have hrest : ∀ v ∈ rest, ' ' ∉ v := fun v hv => hwords v (List.mem_cons_of_mem _ hv)
      by_cases h1 : estimateTextWidth w fs b m rc bc > mw ∧ cur = []
      · -- oversized word on an empty line: _break_long_word
        rw [wrapLoop_cons_break mw fs b m rc bc w rest lines cur cw h1] at hL
        by_cases hwnil : w = []
        · subst hwnil
          have hbw : breakLongWord [] mw fs b m rc bc = [[]] := by
            rw [breakLongWord, breakChunks]
            simp
          rw [hbw] at hL
          refine ih _ _ _ hrest ?_ ?_ ?_ ?_ L hL
          · intro L2 hL2
            rcases List.mem_append.1 hL2 with h | h
            · exact hlines L2 h
            · simp at h
          · intro v hv
            rcases List.mem_singleton.1 hv with rfl
            simp
          · rfl
          · intro _
            exact Or.inr ⟨_, rfl⟩
        · have hchne : breakChunks mw fs b m rc bc w [] 0 ≠ [] :=
            breakChunks_ne_nil mw fs b m rc bc w [] 0 (Or.inr hwnil)
          have hbw : breakLongWord w mw fs b m rc bc =
              breakChunks mw fs b m rc bc w [] 0 := by
            rw [breakLongWord]
            simp [hchne]
          have hmem := breakChunks_mem mw fs b m rc bc hfs hrc hbc w [] 0 hw
            (List.not_mem_nil ' ') (by simp [estimateTextWidth]) (Or.inl rfl)
          rw [hbw] at hL
          refine ih _ _ _ hrest ?_ ?_ ?_ ?_ L hL
          · intro L2 hL2
            rcases List.mem_append.1 hL2 with h | h
            · exact hlines L2 h
            · obtain ⟨hsp2, hne2, hdisj2⟩ := hmem L2 (List.dropLast_subset _ h)
              exact wrapLineOK_chunk mw fs b m rc bc hfs hrc hbc L2 hsp2 hne2 hdisj2
          · intro v hv
            rcases List.mem_singleton.1 hv with rfl
            exact (hmem _ (getLastD_mem _ [] hchne)).1
          · rfl
          · intro _
            exact Or.inr ⟨_, rfl⟩
      · by_cases h2 : cw + (if cur = [] then 0 else estimateCharWidth ' ' fs b m rc bc) +
            estimateTextWidth w fs b m rc bc ≤ mw
        · -- the word fits on the current line
          rw [wrapLoop_cons_fit mw fs b m rc bc w rest lines cur cw h1 h2] at hL
          refine ih _ _ _ hrest hlines ?_ ?_ ?_ L hL
          · intro v hv
            rcases List.mem_append.1 hv with h | h
            · exact hcur v h
            · rcases List.mem_singleton.1 h with rfl
              exact hw
          · rw [width_joinSpace_snoc, ← hcw]
          · intro _
            exact Or.inl h2
        · -- line break: flush the current line and start a new one
          rw [wrapLoop_cons_flush mw fs b m rc bc w rest lines cur cw h1 h2] at hL
          refine ih _ _ _ hrest ?_ ?_ ?_ ?_ L hL
          · intro L2 hL2
            rcases List.mem_append.1 hL2 with h | h
            · exact hlines L2 h
            · by_cases hc : cur = []
              · simp [hc] at h
              · simp only [hc, if_false, List.mem_singleton] at h
                subst h
                refine wrapLineOK_join mw fs b m rc bc hfs hrc hbc cur hc hcur ?_
                rcases hinv hc with hle | hx
                · exact Or.inl (hcw ▸ hle)
                · exact Or.inr hx
          · intro v hv
            rcases List.mem_singleton.1 hv with rfl
            exact hw
          · rfl
          · intro _
            exact Or.inr ⟨_, rfl⟩

end Mdsvg

/-- C4 counterexample: at `max_width = 10`, `font_size = 10` (default ratios),
`wrap_text("a mmmm")` produces the line `"mmmm"` (an oversized word placed
after a non-empty current line is kept whole), but re-wrapping `"mmmm"`
standalone at the same max width force-breaks it character by character, so
the produced line does not re-wrap to itself. -/
theorem wrap_text_idempotence_counterexample :
    "mmmm".data ∈ wrapText "a mmmm".data 10 10 false false 0.48 0.52 ∧
      wrapText "mmmm".data 10 10 false false 0.48 0.52 ≠ ["mmmm".data] := by
  have h1 : wrapText "a mmmm".data 10 10 false false 0.48 0.52 =
      ["a".data, "mmmm".data] := by
    simp +decide [wrapText, wrapLoop, breakLongWord, breakChunks, splitOnSpace,
      joinSpace, estimateTextWidth, estimateCharWidth, narrowChars, wideChars,
      mediumChars]
    norm_num
    simp
  have h2 : wrapText "mmmm".data 10 10 false false 0.48 0.52 =
      [['m'], ['m'], ['m'], ['m']] := by
    simp +decide [wrapText, wrapLoop, breakLongWord, breakChunks, splitOnSpace,
      joinSpace, estimateTextWidth, estimateCharWidth, narrowChars, wideChars,
      mediumChars]
    norm_num
    simp
  constructor
  · rw [h1]
    simp
  · rw [h2]
    simp

/-- C4 amended: for every text, max width, positive font size and style
flags (at the default width ratios), every line produced by `wrap_text`
either fits within the max width or is a single unbreakable word (it contains
no space); and re-wrapping a produced line standalone at the same max width
yields exactly that line whenever the line fits within the max width or is a
single character.  (The claim as frozen also asserted idempotence for
multi-character single-word lines wider than the max width; the
counterexample shows re-wrapping breaks those.) -/
theorem wrap_text_width_bound_and_idempotent_amended :
    ∀ (text : List Char) (mw fs : ℚ) (b m : Bool), 0 < fs →
      ∀ L ∈ wrapText text mw fs b m 0.48 0.52,
        (estimateTextWidth L fs b m 0.48 0.52 ≤ mw ∨ ' ' ∉ L) ∧
        ((estimateTextWidth L fs b m 0.48 0.52 ≤ mw ∨ L.length = 1) →
          wrapText L mw fs b m 0.48 0.52 = [L]) := by
  intro text mw fs b m hfs L hL
  have hrc : (0 : ℚ) < 0.48 := by norm_num
  have hbc : (0 : ℚ) < 0.52 := by norm_num
  have hempty : wrapLineOK mw fs b m 0.48 0.52 [] := by
    constructor
    · exact Or.inr (List.not_mem_nil ' ')
    · intro _
      rw [wrapText]
      simp
  by_cases ht : text = []
  · subst ht
    have heq : wrapText ([] : List Char) mw fs b m 0.48 0.52 = [[]] := by
      rw [wrapText]
      simp
    rw [heq] at hL
    rcases List.mem_singleton.1 hL with rfl
    exact hempty
  · rw [wrapText, if_neg ht] at hL
    by_cases hrun : wrapLoop mw fs b m 0.48 0.52 (splitOnSpace text) [] [] 0 = []
    · rw [if_pos hrun] at hL
      rcases List.mem_singleton.1 hL with rfl
      exact hempty
    · rw [if_neg hrun] at hL
      exact wrapLoop_mem_ok mw fs b m 0.48 0.52 hfs hrc hbc (splitOnSpace text) [] []
        0 (splitOnSpace_no_space text) (by intro L2 h; simp at h)
        (by intro v h; simp at h) (by simp [joinSpace, estimateTextWidth])
        (fun h => absurd rfl h) L hL

/-- Witness for the amended C4 at `text = "a b"`, `max_width = 100`,
`font_size = 10`: the produced line `"a b"` fits and re-wraps to itself. -/
theorem wrap_text_width_bound_and_idempotent_amended_witness :
    (0 : ℚ) < 10 ∧
      "a b".data ∈ wrapText "a b".data 100 10 false false 0.48 0.52 ∧
      ((estimateTextWidth "a b".data 10 false false 0.48 0.52 ≤ 100 ∨
          "a b".data.length = 1) →
        wrapText "a b".data 100 10 false false 0.48 0.52 = ["a b".data]) := by
  have heval : wrapText "a b".data 100 10 false false 0.48 0.52 = ["a b".data] := by
    simp +decide [wrapText, wrapLoop, breakLongWord, breakChunks, splitOnSpace,
      joinSpace, estimateTextWidth, estimateCharWidth, narrowChars, wideChars,
      mediumChars]
    norm_num
  have hmem : "a b".data ∈ wrapText "a b".data 100 10 false false 0.48 0.52 := by
    rw [heval]
    simp
  exact ⟨by norm_num, hmem,
    (wrap_text_width_bound_and_idempotent_amended "a b".data 100 10 false false
      (by norm_num) "a b".data hmem).2⟩

/-- C1 (code bug): for a line that is exactly a standalone image reference,
`parse` does not return a document with an ImageBlock — it raises.  The
parser's standalone-image branch calls
`ImageBlock(url=url, alt=alt, title=title, width=width, height=height)`
(parser.py line 233), but `types.ImageBlock` declares only `url`, `alt` and
`title`, so the call raises `TypeError` on every standalone image line; the
renderer (`img.width`, renderer.py line 823) and the repository's own test
`test_standalone_image` both expect the fields the claim describes. -/
theorem standalone_image_parse_raises_type_error :
    parse "![alt text](image.jpg)" =
      Except.error
        (Err.typeError "ImageBlock got an unexpected keyword argument width") := by
  rfl

namespace Mdsvg

/-! ### Supporting lemmas for the ordered-list claim -/

lemma replaceCRLF_of_no_cr (s : List Char) (h : '\r' ∉ s) : replaceCRLF s = s := by
  induction s with
  | nil => rfl
  | cons c cs ih =>
      have hc : c ≠ '\r' := fun hc => h (hc ▸ List.mem_cons_self c cs)
      have hcs : '\r' ∉ cs := fun hm => h (List.mem_cons_of_mem c hm)
      cases cs with
      | nil => rw [replaceCRLF, if_neg hc]
      | cons d rest =>
          rw [replaceCRLF, if_neg hc, ih hcs]

lemma splitOnChar_of_not_mem (sep : Char) (w : List Char) (h : sep ∉ w) :
    splitOnChar sep w = [w] := by
  induction w with
  | nil => rfl
  | cons c cs ih =>
      have hc : c ≠ sep := fun hc => h (hc ▸ List.mem_cons_self c cs)
      have hcs : sep ∉ cs := fun hm => h (List.mem_cons_of_mem c hm)
      rw [splitOnChar, if_neg hc, ih hcs]

lemma splitOnChar_append_sep (sep : Char) (w t : List Char) (h : sep ∉ w) :
    splitOnChar sep (w ++ sep :: t) = w :: splitOnChar sep t := by
  induction w with
  | nil =>
      show splitOnChar sep (sep :: t) = [] :: splitOnChar sep t
      rw [splitOnChar]
      simp
  | cons c cs ih =>
      have hc : c ≠ sep := fun hc => h (hc ▸ List.mem_cons_self c cs)
      have hcs : sep ∉ cs := fun hm => h (List.mem_cons_of_mem c hm)
      show splitOnChar sep (c :: (cs ++ sep :: t)) = (c :: cs) :: splitOnChar sep t
      rw [splitOnChar, ih hcs]
      simp [hc]

lemma splitOnChar_joinNL (ws : List (List Char)) (hne : ws ≠ [])
    (h : ∀ w ∈ ws, '\n' ∉ w) : splitOnChar '\n' (joinNL ws) = ws := by
  induction ws with
  | nil => exact absurd rfl hne
  | cons w ws ih =>
      cases ws with
      | nil =>
          have hj : joinNL [w] = w := rfl
          rw [hj, splitOnChar_of_not_mem '\n' w (h w (List.mem_cons_self w []))]
      | cons y ys =>
          have hj : joinNL (w :: y :: ys) = w ++ '\n' :: joinNL (y :: ys) := rfl
          rw [hj, splitOnChar_append_sep '\n' w _ (h w (List.mem_cons_self w _)),
            ih (by simp) (fun v hv => h v (List.mem_cons_of_mem w hv))]

lemma takeWhile_append_stop (p : Char → Bool) (xs : List Char) (y : Char)
    (ys : List Char) (hall : ∀ x ∈ xs, p x = true) (hy : p y = false) :
    (xs ++ y :: ys).takeWhile p = xs := by
  induction xs with
  | nil => simp [List.takeWhile, hy]
  | cons x xs ih =>
      have hx : p x = true := hall x (List.mem_cons_self x xs)
      simp only [List.cons_append, List.takeWhile_cons, hx, if_true]
      rw [ih (fun v hv => hall v (List.mem_cons_of_mem x hv))]

lemma pyIsDigit_facts (c : Char) (h : pyIsDigit c = true) :
    pyIsSpace c = false ∧ c ≠ '#' ∧ c ≠ '-' ∧ c ≠ '*' ∧ c ≠ '_' ∧ c ≠ '+' ∧
      c ≠ '>' ∧ c ≠ '|' ∧ c ≠ ' ' ∧ c ≠ '\t' ∧ c ≠ backtickChar := by
  refine ⟨?_, ?_, ?_, ?_, ?_, ?_, ?_, ?_, ?_, ?_, ?_⟩
  · have h32 : c ≠ ' ' := fun he => absurd h (by subst he; decide)
    have h9 : c ≠ '\t' := fun he => absurd h (by subst he; decide)
    have h10 : c ≠ '\n' := fun he => absurd h (by subst he; decide)
    have h13 : c ≠ '\r' := fun he => absurd h (by subst he; decide)
    have h11 : c ≠ Char.ofNat 11 := fun he => absurd h (by subst he; decide)
    have h12 : c ≠ Char.ofNat 12 := fun he => absurd h (by subst he; decide)
    simp [pyIsSpace, h32, h9, h10, h13, h11, h12]
  all_goals exact fun he => absurd h (by subst he; decide)

lemma pyStrip_cons_not_space (c : Char) (cs : List Char) (h : pyIsSpace c = false) :
    pyStrip (c :: cs) ≠ [] := by
  intro hcontra
  unfold pyStrip stripBoth at hcontra
  rw [List.dropWhile_cons, h] at hcontra
  simp only [Bool.false_eq_true, if_false, List.reverse_eq_nil_iff] at hcontra
  rw [List.dropWhile_eq_nil_iff] at hcontra
  have := hcontra c (by simp)
  rw [h] at this
  exact Bool.false_ne_true this

lemma simpleOrderedItem_line_shape (p : List Char × List Char)
    (hp : simpleOrderedItem p) :
    ∃ d ds, p.1 = d :: ds ∧ pyIsDigit d = true ∧
      orderedItemLine p = d :: (ds ++ '.' :: ' ' :: p.2) := by
  obtain ⟨hne, hall, _, _, _, _⟩ := hp
  cases hd : p.1 with
  | nil => exact absurd hd hne
  | cons d ds =>
      refine ⟨d, ds, rfl, ?_, ?_⟩
      · rw [hd] at hall
        simp only [List.all_cons, Bool.and_eq_true] at hall
        exact hall.1
      · rw [orderedItemLine, hd]
        rfl

lemma simpleOrderedItem_matchers (p : List Char × List Char)
    (hp : simpleOrderedItem p) :
    headingMatch (orderedItemLine p) = none ∧
    horizontalRuleMatch (orderedItemLine p) = false ∧
    fencedStartMatch (orderedItemLine p) = none ∧
    (orderedItemLine p).take 4 ≠ "    ".data ∧
    (orderedItemLine p).take 1 ≠ ['\t'] ∧
    blockquoteMatch (orderedItemLine p) = none ∧
    tableRowMatch (orderedItemLine p) = false ∧
    unorderedItemMatch (orderedItemLine p) = none ∧
    orderedItemMatch (orderedItemLine p) = some (0, p.1, p.2) := by
  obtain ⟨d, ds, hp1, hd, hline⟩ := simpleOrderedItem_line_shape p hp
  obtain ⟨hspace, hhash, hdash, hstar, hunder, hplus, hgt, hpipe, hsp, htab, hbt⟩ :=
    pyIsDigit_facts d hd
  obtain ⟨hne1, hall, hne2, hhead2, _, _⟩ := hp
  refine ⟨?_, ?_, ?_, ?_, ?_, ?_, ?_, ?_, ?_⟩
  · rw [hline]
    unfold headingMatch
    rw [List.takeWhile_cons]
    simp [hhash]
  · rw [hline]
    unfold horizontalRuleMatch
    rw [List.takeWhile_cons]
    simp [hdash, hstar, hunder]
  · rw [hline]
    unfold fencedStartMatch
    cases ds ++ '.' :: ' ' :: p.2 with
    | nil => simp [hbt]
    | cons x xs => simp [List.take_cons, hbt]
  · rw [hline]
    intro hcontra
    have hdd := congrArg (fun l => l.headD '?') hcontra
    dsimp only at hdd
    have h4 : (List.take 4 (d :: (ds ++ '.' :: ' ' :: p.2))).headD '?' = d := rfl
    have h5 : ("    ".data).headD '?' = ' ' := rfl
    rw [h4, h5] at hdd
    exact hsp hdd
  · rw [hline]
    intro hcontra
    have hdd := congrArg (fun l => l.headD '?') hcontra
    dsimp only at hdd
    have h4 : (List.take 1 (d :: (ds ++ '.' :: ' ' :: p.2))).headD '?' = d := rfl
    have h5 : (['\t'] : List Char).headD '?' = '\t' := rfl
    rw [h4, h5] at hdd
    exact htab hdd
  · rw [hline]
    unfold blockquoteMatch
    simp [hgt]
  · rw [hline]
    unfold tableRowMatch
    simp [hpipe]
  · rw [hline]
    unfold unorderedItemMatch
    rw [List.takeWhile_cons, hspace]
    simp only [Bool.false_eq_true, if_false, List.length_nil, List.drop_zero]
    simp [hdash, hstar, hplus]
  · have hind : (orderedItemLine p).takeWhile pyIsSpace = [] := by
      rw [hline, List.takeWhile_cons, hspace]
      simp
    have hds : (orderedItemLine p).takeWhile pyIsDigit = p.1 := by
      unfold orderedItemLine
      exact takeWhile_append_stop pyIsDigit p.1 '.' (' ' :: p.2)
        (fun x hx => List.all_eq_true.1 hall x hx)
        (by decide)
    have hdrop : (orderedItemLine p).drop p.1.length = '.' :: ' ' :: p.2 := by
      unfold orderedItemLine
      exact List.drop_left p.1 _
    unfold orderedItemMatch
    rw [hind]
    simp only [List.length_nil, List.drop_zero]
    rw [hds, if_neg hne1, hdrop]
    obtain ⟨c2, cs2, hp2⟩ : ∃ c2 cs2, p.2 = c2 :: cs2 := by
      cases hx : p.2 with
      | nil => exact absurd hx hne2
      | cons a b => exact ⟨a, b, rfl⟩
    have hws : wsPlusText (' ' :: p.2) = some p.2 := by
      unfold wsPlusText
      have h1 : (' ' :: p.2).takeWhile pyIsSpace = [' '] := by
        rw [List.takeWhile_cons]
        have : pyIsSpace ' ' = true := by decide
        rw [this]
        simp only [if_true]
        rw [hp2, List.takeWhile_cons]
        rw [hp2] at hhead2
        simp only [List.headD_cons] at hhead2
        rw [hhead2]
        simp
      rw [h1]
      simp [hne2]
    show Option.map (fun text => ((0 : Nat), p.1, text)) (wsPlusText (' ' :: p.2)) =
      some (0, p.1, p.2)
    rw [hws]
    rfl

lemma orderedItemLine_strip_ne (p : List Char × List Char)
    (hp : simpleOrderedItem p) : pyStrip (orderedItemLine p) ≠ [] := by
  obtain ⟨d, ds, _, hd, hline⟩ := simpleOrderedItem_line_shape p hp
  rw [hline]
  exact pyStrip_cons_not_space d _ (pyIsDigit_facts d hd).1

lemma parseOLAux_map_some_zero (ps : List (List Char × List Char))
    (h : ∀ p ∈ ps, simpleOrderedItem p) :
    parseOLAux (ps.map orderedItemLine) (some 0) =
      (orderedItemsSpec ps).map (fun its => (its, ps.length, (none : Option Int))) := by
  induction ps with
  | nil => rfl
  | cons p ps ih =>
      have hp := h p (List.mem_cons_self p ps)
      have hrest : ∀ q ∈ ps, simpleOrderedItem q :=
        fun q hq => h q (List.mem_cons_of_mem p hq)
      have hstrip := orderedItemLine_strip_ne p hp
      have hmatch := (simpleOrderedItem_matchers p hp).2.2.2.2.2.2.2.2
      rw [List.map_cons, parseOLAux, if_neg hstrip, hmatch]
      show (do
        let spans ← parseInline p.2
        let r ← parseOLAux (ps.map orderedItemLine) (some 0)
        Except.ok (ListItem.mk spans none :: r.1, r.2.1 + 1, r.2.2)) =
        (orderedItemsSpec (p :: ps)).map
          (fun its => (its, (p :: ps).length, (none : Option Int)))
      simp only [orderedItemsSpec]
      cases hsp : parseInline p.2 with
      | error e => rfl
      | ok spans =>
          rw [ih hrest]
          cases hI : orderedItemsSpec ps with
          | error e => rfl
          | ok its => rfl

lemma parseOrderedList_run (first : List Char × List Char)
    (rest : List (List Char × List Char))
    (h : ∀ p ∈ first :: rest, simpleOrderedItem p) :
    parseOrderedList ((first :: rest).map orderedItemLine) =
      (orderedItemsSpec (first :: rest)).map
        (fun its =>
          (Block.ordered_list its (pyIntOfDigits first.1), (first :: rest).length)) := by
  have hp := h first (List.mem_cons_self first rest)
  have hrest : ∀ q ∈ rest, simpleOrderedItem q :=
    fun q hq => h q (List.mem_cons_of_mem first hq)
  have hstrip := orderedItemLine_strip_ne first hp
  have hmatch := (simpleOrderedItem_matchers first hp).2.2.2.2.2.2.2.2
  unfold parseOrderedList
  rw [List.map_cons, parseOLAux, if_neg hstrip, hmatch]
  show (Except.map (fun r => (Block.ordered_list r.1 (r.2.2.getD 1), r.2.1)) (do
    let spans ← parseInline first.2
    let r ← parseOLAux (rest.map orderedItemLine) (some 0)
    Except.ok (ListItem.mk spans none :: r.1, r.2.1 + 1,
      some (pyIntOfDigits first.1)))) = _
  simp only [orderedItemsSpec]
  cases hsp : parseInline first.2 with
  | error e => rfl
  | ok spans =>
      rw [parseOLAux_map_some_zero rest hrest]
      cases hI : orderedItemsSpec rest with
      | error e => rfl
      | ok its => rfl

lemma except_bind_ok {α β : Type} (a : α) (f : α → Except Err β) :
    (Except.ok a : Except Err α) >>= f = f a := rfl

lemma except_bind_error {α β : Type} (e : Err) (f : α → Except Err β) :
    (Except.error e : Except Err α) >>= f = Except.error e := rfl

lemma joinNL_cons_append (l : List Char) (ls : List (List Char)) :
    ∃ t, joinNL (l :: ls) = l ++ t := by
  cases ls with
  | nil => exact ⟨[], by simp [joinNL]⟩
  | cons y ys => exact ⟨'\n' :: joinNL (y :: ys), rfl⟩

lemma mem_joinNL (c : Char) (ws : List (List Char)) (h : c ∈ joinNL ws) :
    c = '\n' ∨ ∃ w ∈ ws, c ∈ w := by
  induction ws with
  | nil => simp [joinNL] at h
  | cons w ws ih =>
      cases ws with
      | nil =>
          have : joinNL [w] = w := rfl
          rw [this] at h
          exact Or.inr ⟨w, List.mem_cons_self w [], h⟩
      | cons y ys =>
          have hj : joinNL (w :: y :: ys) = w ++ '\n' :: joinNL (y :: ys) := rfl
          rw [hj] at h
          rcases List.mem_append.1 h with h1 | h1
          · exact Or.inr ⟨w, List.mem_cons_self w _, h1⟩
          · rcases List.mem_cons.1 h1 with rfl | h2
            · exact Or.inl rfl
            · rcases ih h2 with h3 | ⟨v, hv, hc⟩
              · exact Or.inl h3
              · exact Or.inr ⟨v, List.mem_cons_of_mem w hv, hc⟩

lemma orderedItemLine_not_mem (p : List Char × List Char) (hp : simpleOrderedItem p)
    (c : Char) (hn : pyIsDigit c = false) (h1 : c ≠ '.') (h2 : c ≠ ' ')
    (h3 : c ∉ p.2) : c ∉ orderedItemLine p := by
  intro hmem
  unfold orderedItemLine at hmem
  rcases List.mem_append.1 hmem with hm | hm
  · have := List.all_eq_true.1 hp.2.1 c hm
    rw [hn] at this
    exact Bool.false_ne_true this
  · rcases List.mem_cons.1 hm with rfl | hm2
    · exact h1 rfl
    · rcases List.mem_cons.1 hm2 with rfl | hm3
      · exact h2 rfl
      · exact h3 hm3

lemma splitLines_orderedListText (first : List Char × List Char)
    (rest : List (List Char × List Char))
    (h : ∀ p ∈ first :: rest, simpleOrderedItem p) :
    splitLines (orderedListText (first :: rest)) =
      (first :: rest).map orderedItemLine := by
  have hnocr : '\r' ∉ orderedListText (first :: rest) := by
    intro hmem
    rcases mem_joinNL '\r' _ hmem with hc | ⟨w, hw, hc⟩
    · exact absurd hc (by decide)
    · obtain ⟨p, hp, rfl⟩ := List.mem_map.1 hw
      exact orderedItemLine_not_mem p (h p hp) '\r' (by decide) (by decide) (by decide)
        (h p hp).2.2.2.2.2 hc
  have hnonl : ∀ w ∈ (first :: rest).map orderedItemLine, '\n' ∉ w := by
    intro w hw
    obtain ⟨p, hp, rfl⟩ := List.mem_map.1 hw
    exact orderedItemLine_not_mem p (h p hp) '\n' (by decide) (by decide) (by decide)
      (h p hp).2.2.2.2.1
  unfold splitLines
  rw [replaceCRLF_of_no_cr _ hnocr]
  exact splitOnChar_joinNL _ (by simp) hnonl

lemma tryParseBlock_orderedLines (pi : List Char → Except Err (List Block))
    (first : List Char × List Char) (rest : List (List Char × List Char))
    (h : ∀ p ∈ first :: rest, simpleOrderedItem p) :
    tryParseBlock pi ((first :: rest).map orderedItemLine) =
      (parseOrderedList ((first :: rest).map orderedItemLine)).map some := by
  obtain ⟨mh, mhr, mf, mt4, mt1, mbq, mtr, mul, mol⟩ :=
    simpleOrderedItem_matchers first (h first (List.mem_cons_self _ _))
  have hind : ¬((orderedItemLine first).take 4 = "    ".data ∨
      (orderedItemLine first).take 1 = ['\t']) := by
    rintro (hc | hc)
    exacts [mt4 hc, mt1 hc]
  rw [List.map_cons]
  simp only [tryParseBlock, mh, mhr, mf, hind, mbq, mtr, mul, mol, if_false,
    Bool.false_eq_true, except_bind_ok]
  cases hP : parseOrderedList (orderedItemLine first :: rest.map orderedItemLine) with
  | error e => rfl
  | ok r => rfl

lemma except_map_ok {α β : Type} (f : α → β) (a : α) :
    (Except.ok a : Except Err α).map f = Except.ok (f a) := rfl

lemma except_map_error {α β : Type} (f : α → β) (e : Err) :
    (Except.error e : Except Err α).map f = Except.error e := rfl

end Mdsvg

/-- C6: for every input whose lines form an ordered list (one canonical
`N. text` item per line at the base indent), `parse` returns a single
OrderedList block whose start value is the integer number of the first item
line — subsequent item numbers are never compared against the sequence —
and whose items are one ListItem per item line, each holding the inline
parse of that line's text. -/
theorem ordered_list_start_from_first_item_one_item_per_line
    (s : String) (first : List Char × List Char)
    (rest : List (List Char × List Char))
    (h : ∀ p ∈ first :: rest, simpleOrderedItem p)
    (hdata : s.data = orderedListText (first :: rest)) :
    parse s = (orderedItemsSpec (first :: rest)).map
      (fun its => [Block.ordered_list its (pyIntOfDigits first.1)]) := by
  obtain ⟨d, ds, hp1, hd, hline⟩ :=
    simpleOrderedItem_line_shape first (h first (List.mem_cons_self first rest))
  obtain ⟨t, ht⟩ := joinNL_cons_append (orderedItemLine first)
    (rest.map orderedItemLine)
  have htext : orderedListText (first :: rest) =
      d :: ((ds ++ '.' :: ' ' :: first.2) ++ t) := by
    rw [orderedListText, List.map_cons, ht, hline]
    rfl
  have hne : pyStrip (orderedListText (first :: rest)) ≠ [] := by
    rw [htext]
    exact pyStrip_cons_not_space d _ (pyIsDigit_facts d hd).1
  have hne1 : pyStrip (orderedItemLine first) ≠ [] :=
    orderedItemLine_strip_ne first (h first (List.mem_cons_self first rest))
  unfold parse parseDoc
  rw [hdata, if_neg hne, splitLines_orderedListText first rest h]
  have hfuel : 2 * (orderedListText (first :: rest)).length + 8 =
      (2 * (orderedListText (first :: rest)).length + 7) + 1 := rfl
  rw [List.map_cons, hfuel, parseBlocksAux, if_neg hne1, ← List.map_cons,
    tryParseBlock_orderedLines _ first rest h, parseOrderedList_run first rest h]
  have hdrop : (List.map orderedItemLine (first :: rest)).drop
      (first :: rest).length = ([] : List (List Char)) := by
    simp
  cases hI : orderedItemsSpec (first :: rest) with
  | error e => rfl
  | ok its =>
      simp only [except_map_ok, except_bind_ok, hdrop]
      rfl

/-- Witness for C6 at the spec's own example: parsing `5. Fifth\n6. Sixth`
yields a single OrderedList with start 5 and exactly two items. -/
theorem ordered_list_start_from_first_item_one_item_per_line_witness :
    (∀ p ∈ [((['5'] : List Char), "Fifth".data), (['6'], "Sixth".data)],
        simpleOrderedItem p) ∧
    parse "5. Fifth\n6. Sixth" =
      Except.ok [Block.ordered_list
        [ListItem.mk [Span.mk "Fifth".data SpanType.text none none] none,
         ListItem.mk [Span.mk "Sixth".data SpanType.text none none] none] 5] := by
  have hitems : ∀ p ∈ [((['5'] : List Char), "Fifth".data), (['6'], "Sixth".data)],
      simpleOrderedItem p := by
    intro p hp
    rcases List.mem_cons.1 hp with rfl | hp2
    · exact ⟨by decide, by decide, by decide, by decide, by decide, by decide⟩
    · rcases List.mem_cons.1 hp2 with rfl | hp3
      · exact ⟨by decide, by decide, by decide, by decide, by decide, by decide⟩
      · exact absurd hp3 (List.not_mem_nil p)
  refine ⟨hitems, ?_⟩
  have hmain := ordered_list_start_from_first_item_one_item_per_line
    "5. Fifth\n6. Sixth" (['5'], "Fifth".data) [(['6'], "Sixth".data)]
    hitems (by rfl)
  exact hmain.trans (by rfl)

namespace Mdsvg

lemma noVal_ok {α : Type} (a : α) : noVal (Except.ok a : Except Err α) := trivial

lemma noVal_bind {α β : Type} (m : Except Err α) (f : α → Except Err β)
    (hm : noVal m) (hf : ∀ a, noVal (f a)) : noVal (m >>= f) := by
  cases m with
  | ok a => exact hf a
  | error e =>
      cases e with
      | valueError s => exact False.elim hm
      | typeError s => exact trivial
      | fuelExhausted => exact trivial

lemma noVal_map {α β : Type} (m : Except Err α) (f : α → β) (hm : noVal m) :
    noVal (m.map f) := by
  cases m with
  | ok a => exact trivial
  | error e =>
      cases e with
      | valueError s => exact False.elim hm
      | typeError s => exact trivial
      | fuelExhausted => exact trivial

lemma noVal_mapM_loop {α β : Type} (f : α → Except Err β) :
    ∀ (l : List α) (acc : List β), (∀ a ∈ l, noVal (f a)) →
      noVal (List.mapM.loop f l acc) := by
  intro l
  induction l with
  | nil => intro acc _; exact noVal_ok _
  | cons a as ih =>
      intro acc h
      have hstep : List.mapM.loop f (a :: as) acc =
          f a >>= fun b => List.mapM.loop f as (b :: acc) := rfl
      rw [hstep]
      apply noVal_bind
      · exact h a (List.mem_cons_self a as)
      · intro b
        exact ih (b :: acc) (fun x hx => h x (List.mem_cons_of_mem a hx))

lemma noVal_mapM {α β : Type} (f : α → Except Err β) (l : List α)
    (h : ∀ a ∈ l, noVal (f a)) : noVal (l.mapM f) :=
  noVal_mapM_loop f l [] h

lemma mkSpan_noVal_plain (t : List Char) (st : SpanType) (u ti : Option (List Char))
    (h1 : st ≠ SpanType.link) (h2 : st ≠ SpanType.image) :
    noVal (mkSpan t st u ti) := by
  unfold mkSpan
  rw [if_neg (fun hc => h1 hc.1), if_neg (fun hc => h2 hc.1)]
  exact noVal_ok _

lemma mkSpan_noVal_of_url (t : List Char) (st : SpanType) (url : List Char)
    (ti : Option (List Char)) (h : url ≠ []) :
    noVal (mkSpan t st (some url) ti) := by
  unfold mkSpan
  have hu : ¬((some url : Option (List Char)) = none ∨
      (some url : Option (List Char)) = some []) := by
    rintro (hc | hc)
    · exact Option.noConfusion hc
    · exact h (Option.some.inj hc)
  rw [if_neg (fun hc => hu hc.2), if_neg (fun hc => hu hc.2)]
  exact noVal_ok _

lemma mkSpan_default_noVal (t : List Char) : noVal (mkSpan t) :=
  mkSpan_noVal_plain t .text none none (by decide) (by decide)

lemma mkHeading_noVal (n : Int) (spans : List Span) (h : 1 ≤ n ∧ n ≤ 6) :
    noVal (mkHeading n spans) := by
  unfold mkHeading
  rw [if_pos h]
  exact noVal_ok _

lemma headingMatch_level (line : List Char) (p : Nat × List Char)
    (h : headingMatch line = some p) : 1 ≤ p.1 ∧ p.1 ≤ 6 := by
  simp only [headingMatch] at h
  generalize hn : (line.takeWhile (fun c => c == '#')).length = n at h
  by_cases hc : n = 0 ∨ 6 < n
  · rw [if_pos hc] at h
    exact Option.noConfusion h
  · rw [if_neg hc] at h
    push_neg at hc
    cases hw : wsPlusText (line.drop n) with
    | none =>
        rw [hw] at h
        exact Option.noConfusion h
    | some text =>
        rw [hw] at h
        have h2 : (n, text) = p := Option.some.inj h
        rw [← h2]
        exact ⟨Nat.one_le_iff_ne_zero.2 hc.1, hc.2⟩

lemma parseUrlTitleClose_url_ne (s : List Char)
    (r : List Char × Option (List Char) × List Char)
    (h : parseUrlTitleClose s = some r) : r.1 ≠ [] := by
  simp only [parseUrlTitleClose] at h
  by_cases hu : s.takeWhile (fun c => !(c == ')') && !(pyIsSpace c)) = []
  · rw [if_pos hu] at h
    exact Option.noConfusion h
  · rw [if_neg hu] at h
    have hurl : r.1 = s.takeWhile (fun c => !(c == ')') && !(pyIsSpace c)) := by
      repeat
        first
        | exact Option.noConfusion h
        | exact (congrArg Prod.fst (Option.some.inj h)).symm
        | split at h
    rw [hurl]
    exact hu

lemma tryImageAt_url_ne (s : List Char)
    (r : List Char × List Char × Option (List Char) × List Char)
    (h : tryImageAt s = some r) : r.2.1 ≠ [] := by
  simp only [tryImageAt] at h
  split at h
  · split at h
    · rename_i rest heq rest2 heq2
      cases hp : parseUrlTitleClose rest2 with
      | none =>
          rw [hp] at h
          exact Option.noConfusion h
      | some q =>
          rw [hp] at h
          have h2 := Option.some.inj h
          have hq := parseUrlTitleClose_url_ne rest2 q hp
          rw [← h2]
          exact hq
    · exact Option.noConfusion h
  · exact Option.noConfusion h

lemma tryLinkAt_url_ne (s : List Char)
    (r : List Char × List Char × Option (List Char) × List Char)
    (h : tryLinkAt s = some r) : r.2.1 ≠ [] := by
  simp only [tryLinkAt] at h
  split at h
  · split at h
    · exact Option.noConfusion h
    · split at h
      · rename_i rest heq hne rest2 heq2
        cases hp : parseUrlTitleClose rest2 with
        | none =>
            rw [hp] at h
            exact Option.noConfusion h
        | some q =>
            rw [hp] at h
            have h2 := Option.some.inj h
            have hq := parseUrlTitleClose_url_ne rest2 q hp
            rw [← h2]
            exact hq
      · exact Option.noConfusion h
  · exact Option.noConfusion h

lemma searchAux_some {α : Type} (f : List Char → Option α) :
    ∀ (s : List Char) (r : List Char × α),
      searchAux f s = some r → ∃ t, f t = some r.2 := by
  intro s
  induction s with
  | nil =>
      intro r h
      simp only [searchAux] at h
      cases hf : f [] with
      | none =>
          rw [hf] at h
          exact Option.noConfusion h
      | some a =>
          rw [hf] at h
          have h2 := Option.some.inj h
          refine ⟨[], ?_⟩
          rw [hf, ← h2]
  | cons c cs ih =>
      intro r h
      simp only [searchAux] at h
      cases hf : f (c :: cs) with
      | some a =>
          rw [hf] at h
          have h2 := Option.some.inj h
          refine ⟨c :: cs, ?_⟩
          rw [hf, ← h2]
      | none =>
          rw [hf] at h
          cases hs : searchAux f cs with
          | none =>
              rw [hs] at h
              exact Option.noConfusion h
          | some q =>
              rw [hs] at h
              have h2 := Option.some.inj h
              obtain ⟨t, ht⟩ := ih q hs
              refine ⟨t, ?_⟩
              rw [ht, ← h2]

lemma goodOpt_none : goodOpt none := fun _ h => Option.noConfusion h

lemma goodOpt_map_of {α : Type} (f : List Char × α → Nat × InlineMatch × List Char)
    (hf : ∀ q, goodMatch (f q).2.1) (o : Option (List Char × α)) :
    goodOpt (o.map f) := by
  intro p hp
  cases o with
  | none => exact Option.noConfusion hp
  | some q =>
      have h2 : f q = p := Option.some.inj hp
      rw [← h2]
      exact hf q

lemma earlierMatch_good (cur cand : Option (Nat × InlineMatch × List Char))
    (h1 : goodOpt cur) (h2 : goodOpt cand) : goodOpt (earlierMatch cur cand) := by
  cases cur with
  | none => exact h2
  | some c =>
      cases cand with
      | none =>
          intro p hp
          have h3 : c = p := Option.some.inj hp
          rw [← h3]
          exact h1 c rfl
      | some c2 =>
          intro p hp
          have hstep : earlierMatch (some c) (some c2) =
              if c2.1 < c.1 then some c2 else some c := rfl
          rw [hstep] at hp
          by_cases hlt : c2.1 < c.1
          · rw [if_pos hlt] at hp
            have h3 : c2 = p := Option.some.inj hp
            rw [← h3]
            exact h2 c2 rfl
          · rw [if_neg hlt] at hp
            have h3 : c = p := Option.some.inj hp
            rw [← h3]
            exact h1 c rfl

lemma goodOpt_mcode (remaining : List Char) :
    goodOpt ((searchAux tryCodeAt remaining).map
      (fun r => (r.1.length, InlineMatch.code r.2.1, r.2.2))) := by
  apply goodOpt_map_of
  intro q
  exact True.intro

lemma goodOpt_mimage (remaining : List Char) :
    goodOpt ((searchAux tryImageAt remaining).map
      (fun r => (r.1.length, InlineMatch.image r.2.1 r.2.2.1 r.2.2.2.1, r.2.2.2.2))) := by
  intro p hp
  cases hs : searchAux tryImageAt remaining with
  | none =>
      rw [hs] at hp
      exact Option.noConfusion hp
  | some q =>
      rw [hs] at hp
      obtain ⟨t, ht⟩ := searchAux_some tryImageAt remaining q hs
      have hurl : q.2.2.1 ≠ [] := tryImageAt_url_ne t q.2 ht
      have h2 := Option.some.inj hp
      rw [← h2]
      exact hurl

lemma goodOpt_mlink (remaining : List Char) :
    goodOpt ((searchAux tryLinkAt remaining).map
      (fun r => (r.1.length, InlineMatch.link r.2.1 r.2.2.1 r.2.2.2.1, r.2.2.2.2))) := by
  intro p hp
  cases hs : searchAux tryLinkAt remaining with
  | none =>
      rw [hs] at hp
      exact Option.noConfusion hp
  | some q =>
      rw [hs] at hp
      obtain ⟨t, ht⟩ := searchAux_some tryLinkAt remaining q hs
      have hurl : q.2.2.1 ≠ [] := tryLinkAt_url_ne t q.2 ht
      have h2 := Option.some.inj hp
      rw [← h2]
      exact hurl

lemma goodOpt_mbi (remaining : List Char) :
    goodOpt ((searchAux tryBoldItalicAt remaining).map
      (fun r => (r.1.length, InlineMatch.bold_italic r.2.1, r.2.2))) := by
  apply goodOpt_map_of
  intro q
  exact True.intro

lemma goodOpt_mb (remaining : List Char) :
    goodOpt ((searchAux tryBoldAt remaining).map
      (fun r => (r.1.length, InlineMatch.bold r.2.1, r.2.2))) := by
  apply goodOpt_map_of
  intro q
  exact True.intro

lemma goodOpt_mi (remaining : List Char) :
    goodOpt ((searchAux tryItalicAt remaining).map
      (fun r => (r.1.length, InlineMatch.italic r.2.1, r.2.2))) := by
  apply goodOpt_map_of
  intro q
  exact True.intro

lemma parseInlineLoop_noVal : ∀ (fuel : Nat) (remaining : List Char),
    noVal (parseInlineLoop fuel remaining) := by
  intro fuel
  induction fuel with
  | zero => intro remaining; exact trivial
  | succ fuel ih =>
      intro remaining
      simp only [parseInlineLoop]
      by_cases hne : remaining = []
      · rw [if_pos hne]
        exact noVal_ok _
      · rw [if_neg hne]
        split
        · apply noVal_bind _ _ (mkSpan_default_noVal _)
          intro sp
          exact noVal_ok _
        · rename_i pos mtch rest heq
          have hgood := earlierMatch_good _ _ (earlierMatch_good _ _
            (earlierMatch_good _ _ (earlierMatch_good _ _ (earlierMatch_good _ _
              (earlierMatch_good _ _ goodOpt_none (goodOpt_mcode remaining))
              (goodOpt_mimage remaining)) (goodOpt_mlink remaining))
              (goodOpt_mbi remaining)) (goodOpt_mb remaining)) (goodOpt_mi remaining)
          have hmg : goodMatch mtch := hgood (pos, mtch, rest) heq
          split
          · apply noVal_bind _ _ (mkSpan_default_noVal _)
            intro sp
            apply noVal_bind _ _ (noVal_ok _)
            intro y
            cases mtch with
            | code txt =>
                apply noVal_bind _ _ (mkSpan_noVal_plain _ _ _ _ (by decide) (by decide))
                intro s1
                apply noVal_bind _ _ (ih rest)
                intro tl
                exact noVal_ok _
            | image alt url title =>
                apply noVal_bind _ _ (mkSpan_noVal_of_url _ _ url title hmg)
                intro s1
                apply noVal_bind _ _ (ih rest)
                intro tl
                exact noVal_ok _
            | link txt url title =>
                apply noVal_bind _ _ (mkSpan_noVal_of_url _ _ url title hmg)
                intro s1
                apply noVal_bind _ _ (ih rest)
                intro tl
                exact noVal_ok _
            | bold_italic inner =>
                apply noVal_bind _ _ (mkSpan_noVal_plain _ _ _ _ (by decide) (by decide))
                intro s1
                apply noVal_bind _ _ (ih rest)
                intro tl
                exact noVal_ok _
            | bold inner =>
                apply noVal_bind _ _ (mkSpan_noVal_plain _ _ _ _ (by decide) (by decide))
                intro s1
                apply noVal_bind _ _ (ih rest)
                intro tl
                exact noVal_ok _
            | italic inner =>
                apply noVal_bind _ _ (mkSpan_noVal_plain _ _ _ _ (by decide) (by decide))
                intro s1
                apply noVal_bind _ _ (ih rest)
                intro tl
                exact noVal_ok _
          · apply noVal_bind _ _ (noVal_ok _)
            intro y
            cases mtch with
            | code txt =>
                apply noVal_bind _ _ (mkSpan_noVal_plain _ _ _ _ (by decide) (by decide))
                intro s1
                apply noVal_bind _ _ (ih rest)
                intro tl
                exact noVal_ok _
            | image alt url title =>
                apply noVal_bind _ _ (mkSpan_noVal_of_url _ _ url title hmg)
                intro s1
                apply noVal_bind _ _ (ih rest)
                intro tl
                exact noVal_ok _
            | link txt url title =>
                apply noVal_bind _ _ (mkSpan_noVal_of_url _ _ url title hmg)
                intro s1
                apply noVal_bind _ _ (ih rest)
                intro tl
                exact noVal_ok _
            | bold_italic inner =>
                apply noVal_bind _ _ (mkSpan_noVal_plain _ _ _ _ (by decide) (by decide))
                intro s1
                apply noVal_bind _ _ (ih rest)
                intro tl
                exact noVal_ok _
            | bold inner =>
                apply noVal_bind _ _ (mkSpan_noVal_plain _ _ _ _ (by decide) (by decide))
                intro s1
                apply noVal_bind _ _ (ih rest)
                intro tl
                exact noVal_ok _
            | italic inner =>
                apply noVal_bind _ _ (mkSpan_noVal_plain _ _ _ _ (by decide) (by decide))
                intro s1
                apply noVal_bind _ _ (ih rest)
                intro tl
                exact noVal_ok _

lemma parseInline_noVal (text : List Char) : noVal (parseInline text) := by
  unfold parseInline
  by_cases hne : text = []
  · rw [if_pos hne]
    exact noVal_ok _
  · rw [if_neg hne]
    exact parseInlineLoop_noVal _ _

lemma parseULAux_noVal : ∀ (lines : List (List Char)) (base : Option Nat),
    noVal (parseULAux lines base) := by
  intro lines
  induction lines with
  | nil => intro base; exact noVal_ok _
  | cons line rest ih =>
      intro base
      rw [parseULAux]
      repeat
        first
        | exact noVal_ok _
        | exact noVal_map _ _ (ih _)
        | (apply noVal_bind _ _ (parseInline_noVal _); intro s9)
        | (apply noVal_bind _ _ (ih _); intro r9)
        | split

lemma parseOLAux_noVal : ∀ (lines : List (List Char)) (base : Option Nat),
    noVal (parseOLAux lines base) := by
  intro lines
  induction lines with
  | nil => intro base; exact noVal_ok _
  | cons line rest ih =>
      intro base
      rw [parseOLAux]
      repeat
        first
        | exact noVal_ok _
        | exact noVal_map _ _ (ih _)
        | (apply noVal_bind _ _ (parseInline_noVal _); intro s9)
        | (apply noVal_bind _ _ (ih _); intro r9)
        | split

lemma parseUnorderedList_noVal (lines : List (List Char)) :
    noVal (parseUnorderedList lines) :=
  noVal_map _ _ (parseULAux_noVal lines none)

lemma parseOrderedList_noVal (lines : List (List Char)) :
    noVal (parseOrderedList lines) :=
  noVal_map _ _ (parseOLAux_noVal lines none)

lemma parseTableRowCells_noVal (line : List Char)
    (alignments : List (Option (List Char))) (is_header : Bool) :
    noVal (parseTableRowCells line alignments is_header) := by
  unfold parseTableRowCells
  apply noVal_mapM
  intro p _
  apply noVal_bind _ _ (parseInline_noVal _)
  intro spans
  exact noVal_ok _

lemma parseTableBody_noVal :
    ∀ (lines : List (List Char)) (alignments : List (Option (List Char))),
      noVal (parseTableBody lines alignments) := by
  intro lines
  induction lines with
  | nil => intro alignments; exact noVal_ok _
  | cons line rest ih =>
      intro alignments
      rw [parseTableBody]
      split
      · apply noVal_bind _ _ (parseTableRowCells_noVal _ _ _)
        intro cells
        apply noVal_bind _ _ (ih alignments)
        intro r
        exact noVal_ok _
      · exact noVal_ok _

lemma parseTable_noVal (lines : List (List Char)) : noVal (parseTable lines) := by
  cases lines with
  | nil => exact noVal_ok _
  | cons header tl =>
      cases tl with
      | nil => exact noVal_ok _
      | cons separator rest =>
          rw [parseTable]
          repeat
            first
            | exact noVal_ok _
            | (apply noVal_bind _ _ (parseTableRowCells_noVal _ _ _); intro c9)
            | (apply noVal_bind _ _ (parseTableBody_noVal _ _); intro r9)
            | split

lemma tryParseBlock_noVal (parseInner : List Char → Except Err (List Block))
    (hInner : ∀ txt, noVal (parseInner txt)) :
    ∀ lines, noVal (tryParseBlock parseInner lines) := by
  intro lines
  cases lines with
  | nil => exact noVal_ok _
  | cons line rest =>
      rw [tryParseBlock]
      split
      · rename_i hm heq
        have hb := headingMatch_level line hm heq
        apply noVal_bind _ _ (parseInline_noVal _)
        intro spans
        apply noVal_bind _ _
          (mkHeading_noVal _ _ ⟨by exact_mod_cast hb.1, by exact_mod_cast hb.2⟩)
        intro hblk
        exact noVal_ok _
      · repeat
          first
          | exact noVal_ok _
          | exact noVal_map _ _ True.intro
          | exact parseTable_noVal _
          | (apply noVal_bind _ _ (hInner _); intro b9)
          | (apply noVal_bind _ _ (parseUnorderedList_noVal _); intro u9)
          | (apply noVal_bind _ _ (parseOrderedList_noVal _); intro o9)
          | apply noVal_bind
          | intro z9
          | split

lemma parseBlocksAux_noVal : ∀ (fuel : Nat) (lines : List (List Char)),
    noVal (parseBlocksAux fuel lines) := by
  intro fuel
  induction fuel with
  | zero =>
      intro lines
      cases lines with
      | nil => exact noVal_ok _
      | cons l ls => exact trivial
  | succ fuel ih =>
      intro lines
      cases lines with
      | nil => exact noVal_ok _
      | cons line rest =>
          rw [parseBlocksAux]
          split
          · exact ih rest
          · apply noVal_bind
            · refine tryParseBlock_noVal _ ?_ _
              intro txt
              show noVal (if pyStrip txt = [] then Except.ok []
                else parseBlocksAux fuel (splitLines txt))
              by_cases hb : pyStrip txt = []
              · rw [if_pos hb]
                exact noVal_ok _
              · rw [if_neg hb]
                exact ih _
            · intro x
              cases x with
              | some r =>
                  apply noVal_bind _ _ (ih _)
                  intro blocks
                  exact noVal_ok _
              | none =>
                  apply noVal_bind _ _ (ih _)
                  intro blocks
                  split
                  · apply noVal_bind _ _ (parseInline_noVal _)
                    intro spans
                    exact noVal_ok _
                  · exact noVal_ok _

end Mdsvg

/-- C3: the parser only builds valid data-model instances — the headings it
constructs always have level 1–6 and the link and image spans it constructs
always carry a non-empty url — so `parse` never raises a `ValueError` from
the data-model validators, whatever the input text. -/
theorem parser_never_raises_validation_error (text : String) (msg : String) :
    parse text ≠ Except.error (Err.valueError msg) := by
  intro hcontra
  have h := parseBlocksAux_noVal (2 * text.data.length + 8) (splitLines text.data)
  unfold parse parseDoc at hcontra
  by_cases hb : pyStrip text.data = []
  · rw [if_pos hb] at hcontra
    exact Except.noConfusion hcontra
  · rw [if_neg hb] at hcontra
    rw [hcontra] at h
    exact h

/-- Witness for C3 at a concrete input and message. -/
theorem parser_never_raises_validation_error_witness :
    parse "# Title" ≠ Except.error (Err.valueError "Heading level must be 1-6") :=
  parser_never_raises_validation_error "# Title" "Heading level must be 1-6"

namespace Mdsvg

lemma measure_loop_eq_render_loop (r : SVGRenderer) (ctx : RenderContext) :
    ∀ (blocks : List Block) (current_y : ℚ),
      r.measure_loop ctx blocks current_y =
        (r.render_loop ctx blocks current_y).map (fun res => res.2) := by
  intro blocks
  induction blocks with
  | nil => intro current_y; rfl
  | cons b rest ih =>
      intro current_y
      rw [SVGRenderer.measure_loop, SVGRenderer.render_loop]
      cases hb : r.render_block b (ctx.with_offset 0 (current_y - ctx.y)) with
      | error e => rfl
      | ok res =>
          show r.measure_loop ctx rest (current_y + res.2 + r.style.paragraph_spacing) =
            ((r.render_loop ctx rest
                (current_y + res.2 + r.style.paragraph_spacing)).bind (fun res2 =>
              Except.ok (res.1 ++ res2.1, res2.2))).map (fun res => res.2)
          rw [ih]
          cases hl : r.render_loop ctx rest
              (current_y + res.2 + r.style.paragraph_spacing) with
          | error e => rfl
          | ok res2 => rfl

end Mdsvg

/-- C2: for every renderer state (style, measurer and image configuration),
every document AST and every identical width and padding, `measure` returns
exactly the Size whose width is the given width and whose height is the
total height `render` stamps into the SVG envelope — the two code paths
share the block-layout loop and never disagree, and they fail on exactly
the same inputs. -/
theorem render_measure_height_agreement (r : SVGRenderer) (blocks : List Block)
    (width padding : ℚ) :
    r.measure blocks width padding =
      (r.render blocks width padding).map (fun svg => Size.mk width svg.height) := by
  simp only [SVGRenderer.measure, SVGRenderer.render, measure_loop_eq_render_loop]
  cases hl : r.render_loop
      { x := padding, y := padding, width := width - padding * 2, style := r.style }
      blocks padding with
  | error e => rfl
  | ok res => rfl
